import Mathlib

/-!
# Chat widget controller (`static/script.js`)

A shallow embedding of the client-side controller: the module-level `chatState`, the cached
DOM `elements`, and the handlers of `ui`, `messageManager`, `speechRecognition`, `fileUpload`,
`statusManager` and `chatManager`.

Every handler is a function `State → State`.  Things the script hands to the browser (network
requests, calls to the speech engine) are appended to an effect log; `setTimeout` callbacks are
kept in a list of pending timers.  An `async` handler is split at its `await`: one function for
the part that runs up to the request, one for the part that runs on the outcome.
-/

namespace ChatWidget

/-! ## Strings -/

/-- A JavaScript string, as the list of its characters. -/
abbrev JsString := List Char

/-- Number of UTF-16 code units of one character. -/
def utf16Units (c : Char) : Nat := if c.val.toNat < 65536 then 1 else 2

/-- The `.length` of a JavaScript string: its number of UTF-16 code units. -/
def jsLength : JsString → Nat
  | [] => 0
  | c :: cs => utf16Units c + jsLength cs

/-- ECMAScript `LineTerminator`: LF, CR, LS, PS. -/
def isLineTerminator (c : Char) : Bool :=
  c.val.toNat = 10 || c.val.toNat = 13 || c.val.toNat = 8232 || c.val.toNat = 8233

/-- ECMAScript `WhiteSpace` or `LineTerminator`, the characters `trim()` strips. -/
def isTrimChar (c : Char) : Bool :=
  let n := c.val.toNat
  n = 9 || n = 11 || n = 12 || n = 32 || n = 160 || n = 65279 ||
  n = 5760 || (8192 ≤ n && n ≤ 8202) || n = 8239 || n = 8287 || n = 12288 ||
  isLineTerminator c

/-- The method `String.prototype.trim`. -/
def trim (s : JsString) : JsString :=
  ((s.dropWhile isTrimChar).reverse.dropWhile isTrimChar).reverse

/-- Lower-casing of one character.  ASCII capitals map to their small letters; the two other
code points whose lower case contains an ASCII letter are the Kelvin sign (`k`) and the dotted
capital I (`i` followed by a combining dot).  Every other character lower-cases to a
non-ASCII character and is kept as it is here. -/
def lowerChar (c : Char) : List Char :=
  if 65 ≤ c.val.toNat ∧ c.val.toNat ≤ 90 then [Char.ofNat (c.val.toNat + 32)]
  else if c.val.toNat = 8490 then ['k']
  else if c.val.toNat = 304 then ['i', Char.ofNat 775]
  else [c]

/-- The method `String.prototype.toLowerCase`. -/
def toLowerCase : JsString → JsString
  | [] => []
  | c :: cs => lowerChar c ++ toLowerCase cs

/-- The method `String.prototype.endsWith`. -/
def endsWith (s suffix : JsString) : Bool := suffix.reverse.isPrefixOf s.reverse

/-- Truthiness of a string: only the empty string is falsy. -/
def truthy (s : JsString) : Bool := !s.isEmpty

/-- Truthiness of a property that may be missing: `undefined` and `''` are falsy. -/
def truthyOpt : Option JsString → Bool
  | none => false
  | some s => truthy s

/-- A value inside a template literal: a missing property prints as `undefined`. -/
def templateValue : Option JsString → JsString
  | none => "undefined".toList
  | some s => s

/-! ## `messageManager.escapeHtml` and `messageManager.formatBotResponse` -/

/-- Serialisation of one character of a text node (what `innerHTML` returns for it). -/
def escapeChar (c : Char) : List Char :=
  if c = '&' then "&amp;".toList
  else if c = Char.ofNat 160 then "&nbsp;".toList
  else if c = '<' then "&lt;".toList
  else if c = '>' then "&gt;".toList
  else [c]

/-- The result of `escapeHtml(text)`: the text is stored as the only text node of a detached `div`
and the `div` is serialised. -/
def escapeHtml : JsString → JsString
  | [] => []
  | c :: cs => escapeChar c ++ escapeHtml cs

/-- Reading markup back as text: the four character references that serialisation writes are
decoded, in one pass from the left; `skip` counts the characters of a reference still to be
passed over. -/
def decodeEntitiesFrom : Nat → JsString → JsString
  | _, [] => []
  | skip + 1, _ :: cs => decodeEntitiesFrom skip cs
  | 0, c :: cs =>
    if "&amp;".toList.isPrefixOf (c :: cs) then '&' :: decodeEntitiesFrom 4 cs
    else if "&nbsp;".toList.isPrefixOf (c :: cs) then Char.ofNat 160 :: decodeEntitiesFrom 5 cs
    else if "&lt;".toList.isPrefixOf (c :: cs) then '<' :: decodeEntitiesFrom 3 cs
    else if "&gt;".toList.isPrefixOf (c :: cs) then '>' :: decodeEntitiesFrom 3 cs
    else c :: decodeEntitiesFrom 0 cs

/-- The text a browser shows for markup that holds only text and character references. -/
def decodeEntities (s : JsString) : JsString := decodeEntitiesFrom 0 s

/-- The lazy group `(.*?)` followed by the literal `close`: the shortest run of characters
that are not line terminators after which `close` stands.  Returns the group. -/
def lazyGroup (close : JsString) : JsString → Option JsString
  | [] => if close.isPrefixOf [] then some [] else none
  | c :: cs =>
    if close.isPrefixOf (c :: cs) then some []
    else if isLineTerminator c then none
    else (lazyGroup close cs).map (fun g => c :: g)

/-- A match of `delim (.*?) delim` that starts at the head of the string: its group. -/
def matchAt (delim : JsString) (s : JsString) : Option JsString :=
  if delim.isPrefixOf s then lazyGroup delim (s.drop delim.length) else none

/-- The scan of `replace(/delim(.*?)delim/g, tagOpen + '$1' + tagClose)`: matches are taken
from the left and do not overlap; `skip` counts the characters of the last match still to be
passed over. -/
def replaceFrom (delim tagOpen tagClose : JsString) : Nat → JsString → JsString
  | _, [] => []
  | skip + 1, _ :: cs => replaceFrom delim tagOpen tagClose skip cs
  | 0, c :: cs =>
    match matchAt delim (c :: cs) with
    | some g =>
      tagOpen ++ g ++ tagClose ++
        replaceFrom delim tagOpen tagClose (delim.length + g.length + delim.length - 1) cs
    | none => c :: replaceFrom delim tagOpen tagClose 0 cs

/-- The substitution `.replace(/\*\*(.*?)\*\*/g, '<strong>$1</strong>')`. -/
def replaceBold (s : JsString) : JsString :=
  replaceFrom "**".toList "<strong>".toList "</strong>".toList 0 s

/-- The substitution `.replace(/\*(.*?)\*/g, '<em>$1</em>')`. -/
def replaceItalic (s : JsString) : JsString :=
  replaceFrom "*".toList "<em>".toList "</em>".toList 0 s

/-- The substitution `.replace(/\n/g, '<br>')`. -/
def replaceNewlines : JsString → JsString
  | [] => []
  | c :: cs => (if c = '\n' then "<br>".toList else [c]) ++ replaceNewlines cs

/-- The markup of a bot message (`formatBotResponse`). -/
def formatBotResponse (content : JsString) : JsString :=
  replaceNewlines (replaceItalic (replaceBold content))

/-! ## Data model -/

/-- One record of the transcript `chatState.messages`. -/
structure MessageRecord where
  type : JsString
  content : JsString
  timestamp : Nat
  deriving DecidableEq, Repr

/-- The speech engine object held in `chatState.recognition`, with the settings `init` gives it. -/
structure Recognition where
  continuous : Bool
  interimResults : Bool
  lang : JsString
  deriving DecidableEq, Repr

/-- The module-level `chatState` (`class ChatState`). -/
structure ChatState where
  currentStatus : JsString
  recognition : Option Recognition
  isRecording : Bool
  messages : List MessageRecord
  isWelcomeVisible : Bool
  deriving DecidableEq, Repr

/-- What `new ChatState()` builds. -/
def ChatState.new : ChatState where
  currentStatus := "general".toList
  recognition := none
  isRecording := false
  messages := []
  isWelcomeVisible := true

/-- A child of `#messages-list`: the `div` a render call builds.  `text` is the markup placed
inside `.message-text` (or `.system-message-content`), `time` the markup placed inside
`.message-time`: both are put into the template of `innerHTML` as they are. -/
structure MessageNode where
  id : Nat
  classes : List JsString
  text : JsString
  time : Option JsString
  deriving DecidableEq, Repr

/-- The textarea `#user-input`. -/
structure InputEl where
  value : JsString
  scrollHeight : Nat
  height : Option Nat
  deriving DecidableEq, Repr

/-- The counter `#char-count`. -/
structure CharCountEl where
  textContent : JsString
  color : JsString
  deriving DecidableEq, Repr

/-- The scrolling `#messages-container`. -/
structure ContainerEl where
  scrollTop : Nat
  scrollHeight : Nat
  deriving DecidableEq, Repr

/-- The mode indicator `#status-indicator`: its `.status-text` and its icon, when it has them. -/
structure StatusIndicatorEl where
  statusText : Option JsString
  iconClass : Option JsString
  deriving DecidableEq, Repr

/-- The banner `#upload-status`. -/
structure UploadStatusEl where
  textContent : JsString
  className : JsString
  deriving DecidableEq, Repr

/-- The microphone button `#voice-btn`. -/
structure VoiceBtnEl where
  recording : Bool
  display : JsString
  deriving DecidableEq, Repr

/-- The cached `elements`.  `getElementById` gives `null` for an element the page lacks, which
is `none` here; an element that exists carries the part of it the script reads or writes. -/
structure Elements where
  pdfUpload : Option JsString
  userInput : Option InputEl
  charCount : Option CharCountEl
  messagesContainer : Option ContainerEl
  messagesList : Option (List MessageNode)
  welcomeHidden : Option Bool
  statusIndicator : Option StatusIndicatorEl
  uploadStatus : Option UploadStatusEl
  loadingOverlay : Option JsString
  voiceModal : Option JsString
  sendBtn : Option Bool
  voiceBtn : Option VoiceBtnEl
  deriving DecidableEq, Repr

/-- A file chosen in the file input. -/
structure File where
  name : JsString
  size : Nat
  deriving DecidableEq, Repr

/-- What the script asks of the browser. -/
inductive Effect where
  | fetchStatus
  | fetchUpload (file : File)
  | fetchAsk (question : JsString)
  | fetchClear
  | recognitionStart
  | recognitionStop
  deriving DecidableEq, Repr

/-- An effect that is a network request. -/
def Effect.isRequest : Effect → Bool
  | .fetchStatus => true
  | .fetchUpload _ => true
  | .fetchAsk _ => true
  | .fetchClear => true
  | .recognitionStart => false
  | .recognitionStop => false

/-- The body of a `setTimeout` callback. -/
inductive TimerAction where
  | clearUploadStatus
  | removeAnimation (node : Nat) (animation : JsString)
  deriving DecidableEq, Repr

/-- A pending `setTimeout`. -/
structure Timer where
  due : Nat
  action : TimerAction
  deriving DecidableEq, Repr

/-- The whole state: `chatState`, the DOM behind `elements`, the effect log, the pending
timers, the clock (milliseconds) and the counter that names new message nodes. -/
structure State where
  chatState : ChatState
  elements : Elements
  effects : List Effect
  timers : List Timer
  now : Nat
  nextId : Nat
  deriving DecidableEq, Repr

/-- The two helpers whose result depends on the locale or on floating point:
`utils.getCurrentTime` (as a function of the clock) and `utils.formatFileSize`. -/
structure Env where
  getCurrentTime : Nat → JsString
  formatFileSize : Nat → JsString

/-- The state when the script has just been loaded over the page `dom`. -/
def fresh (dom : Elements) : State where
  chatState := ChatState.new
  elements := dom
  effects := []
  timers := []
  now := 0
  nextId := 0

/-! ## `utils` -/

/-- The handler `utils.scrollToBottom`. -/
def scrollToBottom (s : State) : State :=
  match s.elements.messagesContainer with
  | some c =>
    let c1 : ContainerEl := { c with scrollTop := c.scrollHeight }
    { s with elements.messagesContainer := some c1 }
  | none => s

/-- The end of `utils.addAnimation`: the class is taken off the node again. -/
def removeAnimation (node : Nat) (animation : JsString) (s : State) : State :=
  match s.elements.messagesList with
  | some l =>
    let l1 := l.map (fun n =>
      if n.id = node then { n with classes := n.classes.erase animation } else n)
    { s with elements.messagesList := some l1 }
  | none => s

/-! ## `ui` -/

/-- The handler `ui.showLoading`. -/
def showLoading (s : State) : State :=
  match s.elements.loadingOverlay with
  | some _ => { s with elements.loadingOverlay := some "flex".toList }
  | none => s

/-- The handler `ui.hideLoading`. -/
def hideLoading (s : State) : State :=
  match s.elements.loadingOverlay with
  | some _ => { s with elements.loadingOverlay := some "none".toList }
  | none => s

/-- The handler `ui.showWelcome`. -/
def showWelcome (s : State) : State :=
  match s.elements.welcomeHidden with
  | some _ => { s with elements.welcomeHidden := some false, chatState.isWelcomeVisible := true }
  | none => s

/-- The handler `ui.hideWelcome`. -/
def hideWelcome (s : State) : State :=
  match s.elements.welcomeHidden with
  | some _ => { s with elements.welcomeHidden := some true, chatState.isWelcomeVisible := false }
  | none => s

/-- The colour of the counter above 1800 characters. -/
def errorColor : JsString := "var(--error-color)".toList

/-- The colour of the counter above 1500 characters. -/
def warningColor : JsString := "var(--warning-color)".toList

/-- The colour of the counter otherwise. -/
def defaultColor : JsString := "var(--text-muted)".toList

/-- The handler `ui.updateCharCounter`. -/
def updateCharCounter (s : State) : State :=
  match s.elements.userInput, s.elements.charCount with
  | some input, some _ =>
    let count := jsLength input.value
    let color :=
      if count > 1800 then errorColor
      else if count > 1500 then warningColor
      else defaultColor
    let counter : CharCountEl := { textContent := (Nat.repr count).toList, color := color }
    { s with elements.charCount := some counter }
  | _, _ => s

/-- The handler `ui.updateSendButton`. -/
def updateSendButton (s : State) : State :=
  match s.elements.sendBtn, s.elements.userInput with
  | some _, some input =>
    let hasText := decide (jsLength (trim input.value) > 0)
    { s with elements.sendBtn := some (!hasText) }
  | _, _ => s

/-- The handler `ui.autoResizeTextarea`. -/
def autoResizeTextarea (s : State) : State :=
  match s.elements.userInput with
  | some input =>
    let input1 : InputEl := { input with height := some (min input.scrollHeight 120) }
    { s with elements.userInput := some input1 }
  | none => s

/-- The handler `ui.showUploadStatus(message, type)`. -/
def showUploadStatus (message type : JsString) (s : State) : State :=
  match s.elements.uploadStatus with
  | none => s
  | some _ =>
    let banner : UploadStatusEl :=
      { textContent := message, className := "upload-notification ".toList ++ type }
    let s1 : State := { s with elements.uploadStatus := some banner }
    if type ≠ "error".toList then
      { s1 with timers := s1.timers ++ [{ due := s1.now + 5000, action := .clearUploadStatus }] }
    else s1

/-- The callback `showUploadStatus` schedules. -/
def clearUploadStatus (s : State) : State :=
  match s.elements.uploadStatus with
  | some _ =>
    let banner : UploadStatusEl := { textContent := [], className := "upload-notification".toList }
    { s with elements.uploadStatus := some banner }
  | none => s

/-! ## `messageManager` -/

/-- The common tail of the three render calls: `appendChild`, `utils.addAnimation` (the class
is part of the node from the start, its removal is scheduled 300 ms later) and
`utils.scrollToBottom`. -/
def appendMessage (className animation text : JsString) (time : Option JsString)
    (l : List MessageNode) (s : State) : State :=
  let node : MessageNode :=
    { id := s.nextId, classes := [className, animation], text := text, time := time }
  scrollToBottom
    { s with
      elements.messagesList := some (l ++ [node])
      timers := s.timers ++ [{ due := s.now + 300, action := .removeAnimation s.nextId animation }]
      nextId := s.nextId + 1 }

/-- The handler `messageManager.addUserMessage(text)`. -/
def addUserMessage (env : Env) (text : JsString) (s : State) : State :=
  match s.elements.messagesList with
  | none => s
  | some l =>
    let s1 := if s.chatState.isWelcomeVisible then hideWelcome s else s
    let s2 := appendMessage "user-message".toList "slide-up".toList (escapeHtml text)
      (some (env.getCurrentTime s1.now)) l s1
    { s2 with chatState.messages := s2.chatState.messages ++
        [{ type := "user".toList, content := text, timestamp := s2.now }] }

/-- The handler `messageManager.addBotMessage(content, timestamp)`. `content` is `none` when the
caller passes `undefined`: `formatBotResponse` then throws a `TypeError` before anything is
changed, and the result is `none`. -/
def addBotMessage (env : Env) (content : Option JsString) (timestamp : Option JsString)
    (s : State) : Option State :=
  match s.elements.messagesList with
  | none => some s
  | some l =>
    match content with
    | none => none
    | some c =>
      let time := if truthyOpt timestamp then templateValue timestamp else env.getCurrentTime s.now
      let s2 := appendMessage "bot-message".toList "slide-up".toList (formatBotResponse c)
        (some time) l s
      some { s2 with chatState.messages := s2.chatState.messages ++
          [{ type := "bot".toList, content := c, timestamp := s2.now }] }

/-- The handler `messageManager.addSystemMessage(content)`. -/
def addSystemMessage (content : JsString) (s : State) : State :=
  match s.elements.messagesList with
  | none => s
  | some l => appendMessage "system-message".toList "fade-in".toList (escapeHtml content) none l s

/-- The handler `messageManager.clearMessages`. -/
def clearMessages (s : State) : State :=
  let s1 : State :=
    match s.elements.messagesList with
    | some _ => { s with elements.messagesList := some [] }
    | none => s
  showWelcome { s1 with chatState.messages := [] }

/-! ## `speechRecognition` -/

/-- The handler `speechRecognition.init`; `supported` tells whether the browser has a speech
engine. The callbacks it installs are `onstart`, `onresult`, `onend` and `onerror` below. -/
def speechInit (supported : Bool) (s : State) : State :=
  if supported then
    let r : Recognition := { continuous := true, interimResults := true, lang := "en-US".toList }
    { s with chatState.recognition := some r }
  else
    match s.elements.voiceBtn with
    | some b =>
      let b1 : VoiceBtnEl := { b with display := "none".toList }
      { s with elements.voiceBtn := some b1 }
    | none => s

/-- The callback `recognition.onstart`. -/
def onstart (s : State) : State :=
  let s1 : State := { s with chatState.isRecording := true }
  let s2 : State :=
    match s1.elements.voiceBtn with
    | some b =>
      let b1 : VoiceBtnEl := { b with recording := true }
      { s1 with elements.voiceBtn := some b1 }
    | none => s1
  match s2.elements.voiceModal with
  | some _ => { s2 with elements.voiceModal := some "flex".toList }
  | none => s2

/-- The loop of `recognition.onresult`: the final and the interim transcript of the results
from `resultIndex` on.  A result is its first alternative's transcript and its `isFinal`. -/
def transcripts : List (JsString × Bool) → JsString × JsString
  | [] => ([], [])
  | (t, isFinal) :: rest =>
    let r := transcripts rest
    if isFinal then (t ++ r.1, r.2) else (r.1, t ++ r.2)

/-- The callback `recognition.onresult`. -/
def onresult (results : List (JsString × Bool)) (resultIndex scrollHeight : Nat) (s : State) :
    State :=
  let r := transcripts (results.drop resultIndex)
  match s.elements.userInput with
  | some input =>
    let input1 : InputEl := { input with value := r.1 ++ r.2, scrollHeight := scrollHeight }
    updateSendButton (updateCharCounter (autoResizeTextarea
      { s with elements.userInput := some input1 }))
  | none => s

/-- The handler `speechRecognition.start`. -/
def start (s : State) : State :=
  if s.chatState.recognition.isSome && !s.chatState.isRecording then
    { s with effects := s.effects ++ [.recognitionStart] }
  else s

/-- The handler `speechRecognition.stop`. -/
def stop (s : State) : State :=
  let s1 : State :=
    if s.chatState.recognition.isSome && s.chatState.isRecording then
      { s with effects := s.effects ++ [.recognitionStop] }
    else s
  let s2 : State := { s1 with chatState.isRecording := false }
  let s3 : State :=
    match s2.elements.voiceBtn with
    | some b =>
      let b1 : VoiceBtnEl := { b with recording := false }
      { s2 with elements.voiceBtn := some b1 }
    | none => s2
  match s3.elements.voiceModal with
  | some _ => { s3 with elements.voiceModal := some "none".toList }
  | none => s3

/-- The callback `recognition.onerror`. -/
def onerror (s : State) : State :=
  addSystemMessage "âŒ Voice recognition error. Please try again.".toList (stop s)

/-! ## `statusManager` -/

/-- The outcome of a request: the parsed body, or a failure of the transport or of the parse. -/
inductive Outcome (α : Type) where
  | response (data : α)
  | failure
  deriving DecidableEq, Repr

/-- The handler `statusManager.update`, up to its request. -/
def statusUpdateRequest (s : State) : State :=
  { s with effects := s.effects ++ [.fetchStatus] }

/-- The handler `statusManager.update`, from the outcome of its request; the body is its `mode`. -/
def statusUpdateResponse (o : Outcome JsString) (s : State) : State :=
  match o with
  | .failure => s
  | .response mode =>
    match s.elements.statusIndicator with
    | none => s
    | some ind =>
      let isPdf := decide (mode = "pdf".toList)
      let ind1 : StatusIndicatorEl :=
        { statusText := ind.statusText.map
            (fun _ => if isPdf then "PDF Mode".toList else "General Mode".toList)
          iconClass := ind.iconClass.map
            (fun _ => if isPdf then "fas fa-file-pdf".toList else "fas fa-brain".toList) }
      { s with elements.statusIndicator := some ind1, chatState.currentStatus := mode }

/-! ## `fileUpload` -/

/-- The body of an `/upload` response. -/
structure UploadData where
  success : Bool
  message : Option JsString
  filename : Option JsString
  pages : Option JsString
  error : Option JsString
  deriving DecidableEq, Repr

/-- The handler `fileUpload.resetFileInput`. -/
def resetFileInput (s : State) : State :=
  match s.elements.pdfUpload with
  | some _ => { s with elements.pdfUpload := some [] }
  | none => s

/-- The handler `fileUpload.uploadFile`, up to its request. -/
def uploadFileRequest (env : Env) (file : File) (s : State) : State :=
  let s1 := showLoading s
  let s2 := showUploadStatus
    ("ðŸ“¤ Uploading ".toList ++ file.name ++ " (".toList ++ env.formatFileSize file.size ++
      ")...".toList) "info".toList s1
  { s2 with effects := s2.effects ++ [.fetchUpload file] }

/-- The handler `fileUpload.uploadFile`, from the outcome of its request. -/
def uploadFileResponse (o : Outcome UploadData) (s : State) : State :=
  match o with
  | .response data =>
    let s1 := hideLoading s
    let s2 :=
      if data.success then
        addSystemMessage
          ("ðŸ“„ PDF \"".toList ++ templateValue data.filename ++
            "\" processed successfully with ".toList ++ templateValue data.pages ++
            " pages!".toList)
          (statusUpdateRequest
            (showUploadStatus ("âœ… ".toList ++ templateValue data.message) "success".toList s1))
      else
        showUploadStatus ("âŒ ".toList ++ templateValue data.error) "error".toList s1
    resetFileInput s2
  | .failure =>
    resetFileInput
      (showUploadStatus "âŒ Upload failed. Please try again.".toList "error".toList
        (hideLoading s))

/-- The size ceiling of `handleFileChange`, in bytes. -/
def maxFileSize : Nat := 10 * 1024 * 1024

/-- The handler `fileUpload.handleFileChange`, up to the request of `uploadFile`; `file` is
`event.target.files[0]`. -/
def handleFileChange (env : Env) (file : Option File) (s : State) : State :=
  match file with
  | none => s
  | some f =>
    if !endsWith (toLowerCase f.name) ".pdf".toList then
      resetFileInput (showUploadStatus "âŒ Please select a PDF file".toList "error".toList s)
    else if f.size > maxFileSize then
      resetFileInput
        (showUploadStatus "âŒ File too large. Maximum size is 10MB".toList "error".toList s)
    else uploadFileRequest env f s

/-! ## `chatManager` -/

/-- The body of an `/ask` response; a property the body lacks is `none`. -/
structure AskData where
  error : Option JsString
  answer : Option JsString
  pfx : Option JsString
  timestamp : Option JsString
  deriving DecidableEq, Repr

/-- The text put before the error of an `/ask` response. -/
def failureMarker : JsString := "âŒ ".toList

/-- The content of the bot message shown when `/ask` fails. -/
def askFailedText : JsString := "âŒ Failed to get response. Please try again.".toList

/-- The question `chatManager.sendMessage` would send: the trimmed input, when there is an
input and the trimmed text is not empty. -/
def question? (s : State) : Option JsString :=
  match s.elements.userInput with
  | none => none
  | some input => if truthy (trim input.value) then some (trim input.value) else none

/-- The statement `elements.userInput.value = ''` of `sendMessage`. -/
def clearInput (s : State) : State :=
  match s.elements.userInput with
  | some input =>
    let input1 : InputEl := { input with value := [] }
    { s with elements.userInput := some input1 }
  | none => s

/-- The handler `chatManager.sendMessage`, up to its request. -/
def sendMessageRequest (env : Env) (s : State) : State :=
  match s.elements.userInput with
  | none => s
  | some input =>
    let question := trim input.value
    if !truthy question then s
    else
      let s1 := addUserMessage env question s
      let s2 := clearInput s1
      let s3 := showLoading (updateSendButton (updateCharCounter (autoResizeTextarea s2)))
      { s3 with effects := s3.effects ++ [.fetchAsk question] }

/-- The `fullResponse` of `sendMessage`: the answer, after the prefix when the response has a
non-empty one.  It is `undefined` (`none`) when there is neither a prefix nor an answer. -/
def fullResponse (data : AskData) : Option JsString :=
  if truthyOpt data.pfx then some (templateValue data.pfx ++ templateValue data.answer)
  else data.answer

/-- The handler `chatManager.sendMessage`, from the outcome of its request. A `TypeError` raised
while the response is rendered ends in the same `catch` as a failed request. -/
def sendMessageResponse (env : Env) (o : Outcome AskData) (s : State) : State :=
  let failed (s : State) : State :=
    (addBotMessage env (some askFailedText) none (hideLoading s)).getD s
  match o with
  | .failure => failed s
  | .response data =>
    let s1 := hideLoading s
    let rendered :=
      if truthyOpt data.error then
        addBotMessage env (some (failureMarker ++ templateValue data.error)) data.timestamp s1
      else
        addBotMessage env (fullResponse data) data.timestamp s1
    match rendered with
    | some s2 => s2
    | none => failed s1

/-- The body of a `/clear` response. -/
structure ClearData where
  success : Bool
  message : JsString
  deriving DecidableEq, Repr

/-- The text of the system message shown when `/clear` fails. -/
def clearFailedText : JsString := "âŒ Failed to clear data. Please try again.".toList

/-- The handler `chatManager.clearChat`, up to its request; `confirmed` is the answer to
`confirm`. -/
def clearChatRequest (confirmed : Bool) (s : State) : State :=
  if confirmed then
    let s1 := showLoading s
    { s1 with effects := s1.effects ++ [.fetchClear] }
  else s

/-- The handler `chatManager.clearChat`, from the outcome of its request. -/
def clearChatResponse (o : Outcome ClearData) (s : State) : State :=
  match o with
  | .response data =>
    let s1 := hideLoading s
    if data.success then
      addSystemMessage data.message
        (statusUpdateRequest (showUploadStatus [] "info".toList (clearMessages s1)))
    else addSystemMessage clearFailedText s1
  | .failure => addSystemMessage clearFailedText (hideLoading s)

/-! ## Event wiring -/

/-- The `input` listener, after the browser has put `value` into the textarea (this is also
`window.showSampleQuestion`). -/
def onInput (value : JsString) (scrollHeight : Nat) (s : State) : State :=
  match s.elements.userInput with
  | some input =>
    let input1 : InputEl := { input with value := value, scrollHeight := scrollHeight }
    updateSendButton (updateCharCounter (autoResizeTextarea
      { s with elements.userInput := some input1 }))
  | none => s

/-- The `init` run on `DOMContentLoaded`. -/
def init (supported : Bool) (s : State) : State :=
  updateSendButton (updateCharCounter (speechInit supported (statusUpdateRequest s)))

/-- The `click` listener of the microphone button. -/
def voiceClick (s : State) : State :=
  match s.elements.voiceBtn with
  | some _ => if s.chatState.isRecording then stop s else start s
  | none => s

/-- The listeners that stop a running recording (Escape, page hidden, page unload). -/
def stopIfRecording (s : State) : State :=
  if s.chatState.isRecording then stop s else s

/-- One `setTimeout` callback. -/
def runTimer (a : TimerAction) (s : State) : State :=
  match a with
  | .clearUploadStatus => clearUploadStatus s
  | .removeAnimation node animation => removeAnimation node animation s

/-- Insertion of a timer into a list ordered by due time, after the timers due no later. -/
def insertByDue (t : Timer) : List Timer → List Timer
  | [] => [t]
  | u :: us => if u.due ≤ t.due then u :: insertByDue t us else t :: u :: us

/-- The timers ordered by due time; timers due at the same time keep their order. -/
def orderByDue (ts : List Timer) : List Timer :=
  ts.foldl (fun acc t => insertByDue t acc) []

/-- The clock moves on by `dt` milliseconds: the timers that have become due run, earliest
first, and leave the list. -/
def advance (dt : Nat) (s : State) : State :=
  let now1 := s.now + dt
  let due := orderByDue (s.timers.filter (fun t => t.due ≤ now1))
  let s1 : State :=
    { s with now := now1, timers := s.timers.filter (fun t => !decide (t.due ≤ now1)) }
  due.foldl (fun acc t => runTimer t.action acc) s1

/-- What can happen to the page. -/
inductive Event where
  | init (supported : Bool)
  | input (value : JsString) (scrollHeight : Nat)
  | send
  | askOutcome (o : Outcome AskData)
  | clearChat (confirmed : Bool)
  | clearOutcome (o : Outcome ClearData)
  | fileChange (file : Option File)
  | uploadOutcome (o : Outcome UploadData)
  | statusOutcome (o : Outcome JsString)
  | voiceClick
  | stopVoice
  | stopIfRecording
  | recognitionStart
  | recognitionResult (results : List (JsString × Bool)) (resultIndex scrollHeight : Nat)
  | recognitionEnd
  | recognitionError
  | advance (dt : Nat)

/-- The handler of an event. -/
def step (env : Env) (e : Event) (s : State) : State :=
  match e with
  | .init supported => init supported s
  | .input value scrollHeight => onInput value scrollHeight s
  | .send => sendMessageRequest env s
  | .askOutcome o => sendMessageResponse env o s
  | .clearChat confirmed => clearChatRequest confirmed s
  | .clearOutcome o => clearChatResponse o s
  | .fileChange file => handleFileChange env file s
  | .uploadOutcome o => uploadFileResponse o s
  | .statusOutcome o => statusUpdateResponse o s
  | .voiceClick => voiceClick s
  | .stopVoice => stop s
  | .stopIfRecording => stopIfRecording s
  | .recognitionStart => onstart s
  | .recognitionResult results resultIndex scrollHeight =>
    onresult results resultIndex scrollHeight s
  | .recognitionEnd => stop s
  | .recognitionError => onerror s
  | .advance dt => advance dt s

/-- The states the page can be in: those reached from the freshly loaded script over the page
`dom` by a sequence of events. -/
inductive Reachable (env : Env) (dom : Elements) : State → Prop where
  | fresh : Reachable env dom (fresh dom)
  | step (e : Event) {s : State} : Reachable env dom s → Reachable env dom (step env e s)

/-! ## Sample page -/

/-- A clock and a size printer for the examples. -/
def sampleEnv : Env where
  getCurrentTime := fun _ => "10:01 AM".toList
  formatFileSize := fun n => (Nat.repr n).toList ++ " Bytes".toList

/-- A page that has every element the script looks up. -/
def fullDom : Elements where
  pdfUpload := some []
  userInput := some { value := [], scrollHeight := 40, height := none }
  charCount := some { textContent := "0".toList, color := [] }
  messagesContainer := some { scrollTop := 0, scrollHeight := 0 }
  messagesList := some []
  welcomeHidden := some false
  statusIndicator := some { statusText := some [], iconClass := some [] }
  uploadStatus := some { textContent := [], className := "upload-notification".toList }
  loadingOverlay := some "none".toList
  voiceModal := some "none".toList
  sendBtn := some true
  voiceBtn := some { recording := false, display := [] }

/-- The sample page with the text `v` in its input. -/
def typed (v : JsString) : State :=
  { fresh fullDom with
    elements := { fullDom with userInput := some { value := v, scrollHeight := 40, height := none } } }

/-! ## Notions used in the statements -/

/-- The markup of the time element of a bot message: the timestamp passed in, as it is, when
it is a non-empty string, the client's current time otherwise. -/
def shownTime (env : Env) (timestamp : Option JsString) (now : Nat) : JsString :=
  match timestamp with
  | some t => if t = [] then env.getCurrentTime now else t
  | none => env.getCurrentTime now

/-- The number of calls of the engine's `stop` in an effect log. -/
def stopCalls (l : List Effect) : Nat := l.count Effect.recognitionStop

/-- What every reachable state keeps: the page has the message list and the welcome panel it
had when the script was loaded, and on a page without a welcome panel the flag
`isWelcomeVisible` still has its initial value. -/
def WelcomeInv (dom : Elements) (s : State) : Prop :=
  s.elements.messagesList.isSome = dom.messagesList.isSome ∧
  s.elements.welcomeHidden.isSome = dom.welcomeHidden.isSome ∧
  (s.elements.welcomeHidden = none → s.chatState.isWelcomeVisible = true)

/-- The text `d` stands at none of the first `n` offsets of `s`. -/
def freeOf (d : JsString) : Nat → JsString → Bool
  | 0, _ => true
  | _ + 1, [] => !d.isPrefixOf []
  | n + 1, a :: s => !d.isPrefixOf (a :: s) && freeOf d n s

/-- A text within one line: it holds no line terminator. -/
def oneLine (x : JsString) : Bool := x.all (fun a => !isLineTerminator a)

/-- The run `x` of a match `d x d`: it lies within one line, and the `d` that closes it is the
first `d` that stands after the opening one. -/
def isRun (d x : JsString) : Bool := oneLine x && freeOf d x.length (x ++ d)

/-- The substitution `d x d` to `tagOpen x tagClose` in the words of the specification, as a
relation between a text and its result.  The text is read from the left.  Where a `d x d` with
a run `x` starts, it becomes the tagged run and the reading goes on after its closing `d`;
where none starts, the character is kept. -/
inductive Substituted (d tagOpen tagClose : JsString) : JsString → JsString → Prop where
  | done : Substituted d tagOpen tagClose [] []
  | hit (x post r : JsString) : isRun d x = true → Substituted d tagOpen tagClose post r →
      Substituted d tagOpen tagClose (d ++ x ++ d ++ post) (tagOpen ++ x ++ tagClose ++ r)
  | keep (a : Char) (s r : JsString) :
      (∀ x post : JsString, isRun d x = true → a :: s ≠ d ++ x ++ d ++ post) →
      Substituted d tagOpen tagClose s r → Substituted d tagOpen tagClose (a :: s) (a :: r)

/-! ## Effects of the `ui` handlers -/

@[simp] theorem showLoading_effects (s : State) : (showLoading s).effects = s.effects := by
  unfold showLoading; split <;> rfl

@[simp] theorem hideLoading_effects (s : State) : (hideLoading s).effects = s.effects := by
  unfold hideLoading; split <;> rfl

@[simp] theorem showUploadStatus_effects (m t : JsString) (s : State) :
    (showUploadStatus m t s).effects = s.effects := by
  unfold showUploadStatus; split
  · rfl
  · dsimp only; split <;> rfl

@[simp] theorem resetFileInput_effects (s : State) : (resetFileInput s).effects = s.effects := by
  unfold resetFileInput; split <;> rfl

@[simp] theorem resetFileInput_uploadStatus (s : State) :
    (resetFileInput s).elements.uploadStatus = s.elements.uploadStatus := by
  unfold resetFileInput; split <;> rfl

theorem resetFileInput_pdfUpload (s : State) (v : JsString)
    (h : s.elements.pdfUpload = some v) : (resetFileInput s).elements.pdfUpload = some [] := by
  unfold resetFileInput; rw [h]

@[simp] theorem showUploadStatus_pdfUpload (m t : JsString) (s : State) :
    (showUploadStatus m t s).elements.pdfUpload = s.elements.pdfUpload := by
  unfold showUploadStatus; split
  · rfl
  · dsimp only; split <;> rfl

theorem showUploadStatus_error (m : JsString) (s : State) (u : UploadStatusEl)
    (h : s.elements.uploadStatus = some u) :
    (showUploadStatus m "error".toList s).elements.uploadStatus
      = some { textContent := m, className := "upload-notification error".toList } := by
  unfold showUploadStatus; rw [h]; rfl

/-! ## File upload -/

/-- C1. For a selected file, `handleFileChange` issues the `/upload` request exactly when the
lower-cased name ends in `.pdf` and the size is at most `10*1024*1024` bytes.  In every other
case the effect log is unchanged (no request), the upload banner — on a page that has one —
has the class of an error status, and the file input — on a page that has one — is reset. -/
theorem handleFileChange_request_iff (env : Env) (f : File) (s : State) :
    ((handleFileChange env (some f) s).effects = s.effects ++ [Effect.fetchUpload f] ↔
      (endsWith (toLowerCase f.name) ".pdf".toList = true ∧ f.size ≤ 10 * 1024 * 1024)) ∧
    (¬ (endsWith (toLowerCase f.name) ".pdf".toList = true ∧ f.size ≤ 10 * 1024 * 1024) →
      (handleFileChange env (some f) s).effects = s.effects ∧
      (∀ u, s.elements.uploadStatus = some u →
        ∃ m, (handleFileChange env (some f) s).elements.uploadStatus
          = some { textContent := m, className := "upload-notification error".toList }) ∧
      (∀ v, s.elements.pdfUpload = some v →
        (handleFileChange env (some f) s).elements.pdfUpload = some [])) := by
  have hmax : maxFileSize = 10 * 1024 * 1024 := rfl
  by_cases hn : endsWith (toLowerCase f.name) ".pdf".toList = true
  · by_cases hs : f.size ≤ 10 * 1024 * 1024
    · have hs' : ¬ f.size > maxFileSize := by rw [hmax]; omega
      have e : handleFileChange env (some f) s = uploadFileRequest env f s := by
        simp only [handleFileChange, hn, hs']; rfl
      have h1 : (uploadFileRequest env f s).effects = s.effects ++ [Effect.fetchUpload f] := by
        simp [uploadFileRequest]
      constructor
      · rw [e]; exact ⟨fun _ => ⟨hn, hs⟩, fun _ => h1⟩
      · intro h; exact absurd ⟨hn, hs⟩ h
    · have hs' : f.size > maxFileSize := by rw [hmax]; omega
      have e : handleFileChange env (some f) s = resetFileInput
          (showUploadStatus "âŒ File too large. Maximum size is 10MB".toList "error".toList s) := by
        simp only [handleFileChange, hn, hs']; rfl
      constructor
      · rw [e]
        refine ⟨fun h => ?_, fun h => absurd h.2 hs⟩
        have hl := congrArg List.length h
        simp at hl
      · intro _
        rw [e]
        refine ⟨by simp, fun u hu =>
          ⟨"âŒ File too large. Maximum size is 10MB".toList, ?_⟩, fun v hv => ?_⟩
        · rw [resetFileInput_uploadStatus]; exact showUploadStatus_error _ s u hu
        · exact resetFileInput_pdfUpload _ v (by simpa using hv)
  · have e : handleFileChange env (some f) s = resetFileInput
        (showUploadStatus "âŒ Please select a PDF file".toList "error".toList s) := by
      simp only [handleFileChange, hn]; rfl
    constructor
    · rw [e]
      refine ⟨fun h => ?_, fun h => absurd h.1 hn⟩
      have hl := congrArg List.length h
      simp at hl
    · intro _
      rw [e]
      refine ⟨by simp, fun u hu => ⟨"âŒ Please select a PDF file".toList, ?_⟩, fun v hv => ?_⟩
      · rw [resetFileInput_uploadStatus]; exact showUploadStatus_error _ s u hu
      · exact resetFileInput_pdfUpload _ v (by simpa using hv)

/-- C1 at `x.txt` and at an 11 MB PDF: no request, an error banner, the input reset. -/
theorem handleFileChange_request_iff_witness :
    ((handleFileChange sampleEnv (some { name := "x.txt".toList, size := 10 }) (fresh fullDom)).effects
        = [] ∧
      (∃ m, (handleFileChange sampleEnv (some { name := "x.txt".toList, size := 10 })
          (fresh fullDom)).elements.uploadStatus
        = some { textContent := m, className := "upload-notification error".toList })) ∧
    (handleFileChange sampleEnv (some { name := "big.pdf".toList, size := 11 * 1024 * 1024 })
        (fresh fullDom)).effects = [] ∧
    (handleFileChange sampleEnv (some { name := "Doc.PDF".toList, size := 10 * 1024 * 1024 })
        (fresh fullDom)).effects
      = [Effect.fetchUpload { name := "Doc.PDF".toList, size := 10 * 1024 * 1024 }] :=
  ⟨⟨((handleFileChange_request_iff sampleEnv { name := "x.txt".toList, size := 10 }
        (fresh fullDom)).2 (by decide)).1,
    ((handleFileChange_request_iff sampleEnv { name := "x.txt".toList, size := 10 }
        (fresh fullDom)).2 (by decide)).2.1 _ rfl⟩,
   ((handleFileChange_request_iff sampleEnv
        { name := "big.pdf".toList, size := 11 * 1024 * 1024 } (fresh fullDom)).2 (by decide)).1,
   (handleFileChange_request_iff sampleEnv
        { name := "Doc.PDF".toList, size := 10 * 1024 * 1024 } (fresh fullDom)).1.2 (by decide)⟩

/-! ## Escaping -/

theorem escapeHtml_append (a b : JsString) :
    escapeHtml (a ++ b) = escapeHtml a ++ escapeHtml b := by
  induction a with
  | nil => rfl
  | cons c cs ih => simp [escapeHtml, ih]

theorem not_mem_escapeChar (c : Char) : '<' ∉ escapeChar c ∧ '>' ∉ escapeChar c := by
  unfold escapeChar
  split
  · decide
  · split
    · decide
    · split
      · decide
      · split
        · decide
        · rename_i h1 h2
          simp only [List.mem_singleton]
          exact ⟨fun h => h1 h.symm, fun h => h2 h.symm⟩

theorem not_mem_escapeHtml (t : JsString) : '<' ∉ escapeHtml t ∧ '>' ∉ escapeHtml t := by
  induction t with
  | nil => simp [escapeHtml]
  | cons c cs ih =>
    have h := not_mem_escapeChar c
    simp only [escapeHtml, List.mem_append, not_or]
    exact ⟨⟨h.1, ih.1⟩, ⟨h.2, ih.2⟩⟩

theorem decodeEntitiesFrom_escapeChar (c : Char) (rest : JsString) :
    decodeEntitiesFrom 0 (escapeChar c ++ rest) = c :: decodeEntitiesFrom 0 rest := by
  unfold escapeChar
  split
  · rename_i h; subst h; simp [decodeEntitiesFrom, List.isPrefixOf]
  · split
    · rename_i h; subst h; simp [decodeEntitiesFrom, List.isPrefixOf]
    · split
      · rename_i h; subst h; simp [decodeEntitiesFrom, List.isPrefixOf]
      · split
        · rename_i h; subst h; simp [decodeEntitiesFrom, List.isPrefixOf]
        · rename_i h _ _ _
          have h' : ¬ '&' = c := fun e => h e.symm
          simp [decodeEntitiesFrom, List.isPrefixOf, h']

theorem decodeEntities_escapeHtml (t : JsString) : decodeEntities (escapeHtml t) = t := by
  unfold decodeEntities
  induction t with
  | nil => rfl
  | cons c cs ih => rw [escapeHtml, decodeEntitiesFrom_escapeChar, ih]

theorem appendMessage_messagesList (cls an tx : JsString) (tm : Option JsString)
    (l : List MessageNode) (s : State) :
    (appendMessage cls an tx tm l s).elements.messagesList
      = some (l ++ [{ id := s.nextId, classes := [cls, an], text := tx, time := tm }]) := by
  unfold appendMessage scrollToBottom
  dsimp only
  split <;> rfl

theorem addUserMessage_messagesList (env : Env) (t : JsString) (s : State)
    (l : List MessageNode) (h : s.elements.messagesList = some l) :
    ∃ n : MessageNode,
      (addUserMessage env t s).elements.messagesList = some (l ++ [n]) ∧
      n.text = escapeHtml t ∧ n.classes = ["user-message".toList, "slide-up".toList] := by
  unfold addUserMessage
  rw [h]
  exact ⟨_, appendMessage_messagesList _ _ _ _ _ _, rfl, rfl⟩

theorem addSystemMessage_messagesList (t : JsString) (s : State)
    (l : List MessageNode) (h : s.elements.messagesList = some l) :
    ∃ n : MessageNode,
      (addSystemMessage t s).elements.messagesList = some (l ++ [n]) ∧
      n.text = escapeHtml t ∧ n.classes = ["system-message".toList, "fade-in".toList] := by
  unfold addSystemMessage
  rw [h]
  exact ⟨_, appendMessage_messagesList _ _ _ _ _ _, rfl, rfl⟩

/-- C2. On a page with a message list, the node `addUserMessage` and the node
`addSystemMessage` append for a text `t` carry the markup `escapeHtml t`.  That markup has no
`<` and no `>`; each `&`, `<`, `>` of `t` stands in it as its entity; and decoding the
entities gives `t` back. -/
theorem escapeHtml_rendered_as_text (env : Env) (t : JsString) (s : State)
    (l : List MessageNode) (h : s.elements.messagesList = some l) :
    (∃ n : MessageNode, (addUserMessage env t s).elements.messagesList = some (l ++ [n]) ∧
      n.text = escapeHtml t) ∧
    (∃ n : MessageNode, (addSystemMessage t s).elements.messagesList = some (l ++ [n]) ∧
      n.text = escapeHtml t) ∧
    '<' ∉ escapeHtml t ∧ '>' ∉ escapeHtml t ∧
    (∀ a b : JsString, t = a ++ '&' :: b →
      escapeHtml t = escapeHtml a ++ "&amp;".toList ++ escapeHtml b) ∧
    (∀ a b : JsString, t = a ++ '<' :: b →
      escapeHtml t = escapeHtml a ++ "&lt;".toList ++ escapeHtml b) ∧
    (∀ a b : JsString, t = a ++ '>' :: b →
      escapeHtml t = escapeHtml a ++ "&gt;".toList ++ escapeHtml b) ∧
    decodeEntities (escapeHtml t) = t := by
  refine ⟨?_, ?_, (not_mem_escapeHtml t).1, (not_mem_escapeHtml t).2, ?_, ?_, ?_,
    decodeEntities_escapeHtml t⟩
  · obtain ⟨n, h1, h2, _⟩ := addUserMessage_messagesList env t s l h
    exact ⟨n, h1, h2⟩
  · obtain ⟨n, h1, h2, _⟩ := addSystemMessage_messagesList t s l h
    exact ⟨n, h1, h2⟩
  · intro a b e; subst e; rw [escapeHtml_append]; simp [escapeHtml, escapeChar]
  · intro a b e; subst e; rw [escapeHtml_append]; simp [escapeHtml, escapeChar]
  · intro a b e; subst e; rw [escapeHtml_append]; simp [escapeHtml, escapeChar]

/-- C2 at the user text `<b>hi</b>` on the sample page: the node holds
`&lt;b&gt;hi&lt;/b&gt;`, which reads back as `<b>hi</b>`. -/
theorem escapeHtml_rendered_as_text_witness :
    (∃ n : MessageNode,
      (addUserMessage sampleEnv "<b>hi</b>".toList (fresh fullDom)).elements.messagesList
        = some ([] ++ [n]) ∧ n.text = "&lt;b&gt;hi&lt;/b&gt;".toList) ∧
    decodeEntities "&lt;b&gt;hi&lt;/b&gt;".toList = "<b>hi</b>".toList :=
  ⟨(escapeHtml_rendered_as_text sampleEnv "<b>hi</b>".toList (fresh fullDom) [] rfl).1,
   (escapeHtml_rendered_as_text sampleEnv "<b>hi</b>".toList (fresh fullDom) [] rfl).2.2.2.2.2.2.2⟩

/-! ## Bot messages -/

@[simp] theorem hideLoading_messagesList (s : State) :
    (hideLoading s).elements.messagesList = s.elements.messagesList := by
  unfold hideLoading; split <;> rfl

@[simp] theorem hideLoading_chatState (s : State) : (hideLoading s).chatState = s.chatState := by
  unfold hideLoading; split <;> rfl

@[simp] theorem hideLoading_now (s : State) : (hideLoading s).now = s.now := by
  unfold hideLoading; split <;> rfl

@[simp] theorem appendMessage_chatState (cls an tx : JsString) (tm : Option JsString)
    (l : List MessageNode) (s : State) :
    (appendMessage cls an tx tm l s).chatState = s.chatState := by
  unfold appendMessage scrollToBottom
  dsimp only
  split <;> rfl

@[simp] theorem appendMessage_now (cls an tx : JsString) (tm : Option JsString)
    (l : List MessageNode) (s : State) :
    (appendMessage cls an tx tm l s).now = s.now := by
  unfold appendMessage scrollToBottom
  dsimp only
  split <;> rfl

/-- What `addBotMessage` does with a string on a page that has a message list: one node at the
end of the list, one record at the end of the transcript. -/
theorem addBotMessage_some (env : Env) (c : JsString) (ts : Option JsString) (s : State)
    (l : List MessageNode) (h : s.elements.messagesList = some l) :
    ∃ s' : State, addBotMessage env (some c) ts s = some s' ∧
      s'.elements.messagesList = some (l ++
        [{ id := s.nextId, classes := ["bot-message".toList, "slide-up".toList],
           text := formatBotResponse c, time := some (shownTime env ts s.now) }]) ∧
      s'.chatState.messages = s.chatState.messages ++
        [{ type := "bot".toList, content := c, timestamp := s.now }] := by
  have ht : (if truthyOpt ts then templateValue ts else env.getCurrentTime s.now)
      = shownTime env ts s.now := by
    cases ts with
    | none => rfl
    | some t =>
      cases t with
      | nil => rfl
      | cons a b => rfl
  unfold addBotMessage
  rw [h]
  dsimp only
  rw [ht]
  exact ⟨_, rfl, appendMessage_messagesList _ _ _ _ _ _, by simp⟩

/-- The response step of `sendMessage` when the error field is falsy and `fullResponse` is a
string `c`. -/
theorem sendMessageResponse_answer (env : Env) (data : AskData) (c : JsString) (s : State)
    (l : List MessageNode) (h : s.elements.messagesList = some l)
    (he : truthyOpt data.error = false) (hc : fullResponse data = some c) :
    (sendMessageResponse env (.response data) s).elements.messagesList = some (l ++
        [{ id := s.nextId, classes := ["bot-message".toList, "slide-up".toList],
           text := formatBotResponse c, time := some (shownTime env data.timestamp s.now) }]) ∧
    (sendMessageResponse env (.response data) s).chatState.messages = s.chatState.messages ++
        [{ type := "bot".toList, content := c, timestamp := s.now }] := by
  obtain ⟨s', h1, h2, h3⟩ := addBotMessage_some env c data.timestamp (hideLoading s) l
    (by simpa using h)
  have e : sendMessageResponse env (.response data) s = s' := by
    simp only [sendMessageResponse, he, hc, h1]
    rfl
  rw [e]
  have hid : (hideLoading s).nextId = s.nextId := by unfold hideLoading; split <;> rfl
  rw [hid, hideLoading_now] at h2
  exact ⟨h2, by simpa using h3⟩

/-- C3, as the code has it.  When the `/ask` response has no error field, has the answer `a`
and may have a prefix `p`, then on a page with a message list `sendMessage` appends one bot
node and one bot record; their content is `p` followed by `a` when a prefix is supplied and
`a` otherwise.  The markup of the node's time element is the response's timestamp, put in
unescaped, when that is a non-empty string, and the client's current time when the timestamp
is missing or empty. -/
theorem sendMessage_renders_answer (env : Env) (a : JsString) (p ts : Option JsString)
    (s : State) (l : List MessageNode) (h : s.elements.messagesList = some l) :
    ∃ n : MessageNode,
      (sendMessageResponse env
        (.response { error := none, answer := some a, pfx := p, timestamp := ts })
        s).elements.messagesList = some (l ++ [n]) ∧
      n.classes = ["bot-message".toList, "slide-up".toList] ∧
      n.text = formatBotResponse (match p with | some q => q ++ a | none => a) ∧
      (∀ t : JsString, ts = some t → t ≠ [] → n.time = some t) ∧
      ((ts = none ∨ ts = some []) → n.time = some (env.getCurrentTime s.now)) ∧
      (sendMessageResponse env
        (.response { error := none, answer := some a, pfx := p, timestamp := ts })
        s).chatState.messages = s.chatState.messages ++
          [{ type := "bot".toList, content := (match p with | some q => q ++ a | none => a),
             timestamp := s.now }] := by
  have ht : ∀ t : JsString, ts = some t → t ≠ [] → some (shownTime env ts s.now) = some t := by
    intro t e hne
    subst e
    simp [shownTime, hne]
  have hu : (ts = none ∨ ts = some []) →
      some (shownTime env ts s.now) = some (env.getCurrentTime s.now) := by
    intro h0
    rcases h0 with h0 | h0 <;> subst h0 <;> rfl
  cases p with
  | none =>
    obtain ⟨h1, h2⟩ := sendMessageResponse_answer env
      { error := none, answer := some a, pfx := none, timestamp := ts } a s l h rfl rfl
    exact ⟨_, h1, rfl, rfl, ht, hu, h2⟩
  | some q =>
    have hc : fullResponse { error := none, answer := some a, pfx := some q, timestamp := ts }
        = some (q ++ a) := by
      cases q with
      | nil => rfl
      | cons x y => rfl
    obtain ⟨h1, h2⟩ := sendMessageResponse_answer env
      { error := none, answer := some a, pfx := some q, timestamp := ts } (q ++ a) s l h rfl hc
    exact ⟨_, h1, rfl, rfl, ht, hu, h2⟩

/-- C3 at `{answer: "hi", prefix: "Bot: ", timestamp: "10:00 AM"}` on the sample page: the
content is `Bot: hi` and the time element holds `10:00 AM`. -/
theorem sendMessage_renders_answer_witness :
    ∃ n : MessageNode,
      (sendMessageResponse sampleEnv
        (.response { error := none, answer := some "hi".toList, pfx := some "Bot: ".toList,
                     timestamp := some "10:00 AM".toList })
        (fresh fullDom)).elements.messagesList = some ([] ++ [n]) ∧
      n.text = "Bot: hi".toList ∧ n.time = some "10:00 AM".toList := by
  obtain ⟨n, h1, _, h3, h4, _, _⟩ := sendMessage_renders_answer sampleEnv "hi".toList
    (some "Bot: ".toList) (some "10:00 AM".toList) (fresh fullDom) [] rfl
  exact ⟨n, h1, by rw [h3]; decide, h4 _ rfl (by decide)⟩

/-- C3 as stated fails when the timestamp is the empty string, and for a timestamp that holds
a character reference.  At `{answer: "hi", prefix: "Bot: ", timestamp: ""}` the time element
holds the client's time, not the timestamp.  At `{answer: "hi", timestamp: "10 &amp; 5"}` the
timestamp is the markup of the time element, which reads `10 & 5`. -/
theorem sendMessage_empty_timestamp_counterexample :
    ((sendMessageResponse sampleEnv
        (.response { error := none, answer := some "hi".toList, pfx := some "Bot: ".toList,
                     timestamp := some [] })
        (fresh fullDom)).elements.messagesList
      = some [{ id := 0, classes := ["bot-message".toList, "slide-up".toList],
                text := "Bot: hi".toList, time := some "10:01 AM".toList }] ∧
      some "10:01 AM".toList ≠ some ([] : JsString)) ∧
    ((sendMessageResponse sampleEnv
        (.response { error := none, answer := some "hi".toList, pfx := none,
                     timestamp := some "10 &amp; 5".toList })
        (fresh fullDom)).elements.messagesList
      = some [{ id := 0, classes := ["bot-message".toList, "slide-up".toList],
                text := "hi".toList, time := some "10 &amp; 5".toList }] ∧
      decodeEntities "10 &amp; 5".toList = "10 & 5".toList ∧
      "10 & 5".toList ≠ "10 &amp; 5".toList) := by
  decide

/-- The response step of `sendMessage` when the error field is a non-empty string `e`. -/
theorem sendMessageResponse_error (env : Env) (data : AskData) (e : JsString) (s : State)
    (l : List MessageNode) (h : s.elements.messagesList = some l)
    (he : data.error = some e) (hne : e ≠ []) :
    (sendMessageResponse env (.response data) s).elements.messagesList = some (l ++
        [{ id := s.nextId, classes := ["bot-message".toList, "slide-up".toList],
           text := formatBotResponse (failureMarker ++ e),
           time := some (shownTime env data.timestamp s.now) }]) ∧
    (sendMessageResponse env (.response data) s).chatState.messages = s.chatState.messages ++
        [{ type := "bot".toList, content := failureMarker ++ e, timestamp := s.now }] := by
  obtain ⟨s', h1, h2, h3⟩ := addBotMessage_some env (failureMarker ++ e) data.timestamp
    (hideLoading s) l (by simpa using h)
  have ht : truthyOpt (some e) = true := by
    cases e with
    | nil => exact absurd rfl hne
    | cons x y => rfl
  have e' : sendMessageResponse env (.response data) s = s' := by
    simp only [sendMessageResponse, he, ht, templateValue, h1]
    rfl
  rw [e']
  have hid : (hideLoading s).nextId = s.nextId := by unfold hideLoading; split <;> rfl
  rw [hid, hideLoading_now] at h2
  exact ⟨h2, by simpa using h3⟩

/-- C4, as the code has it.  When the `/ask` response has a non-empty error field `e`, then on
a page with a message list `sendMessage` appends one bot node and one bot record whose content
is the failure marker followed by `e`, whatever answer and prefix the response also carries.
The markup of the node's time element is the response's timestamp, put in unescaped, when that
is a non-empty string, and the client's current time when the timestamp is missing or empty. -/
theorem sendMessage_renders_error (env : Env) (e : JsString) (ans p ts : Option JsString)
    (s : State) (l : List MessageNode) (h : s.elements.messagesList = some l) (hne : e ≠ []) :
    ∃ n : MessageNode,
      (sendMessageResponse env
        (.response { error := some e, answer := ans, pfx := p, timestamp := ts })
        s).elements.messagesList = some (l ++ [n]) ∧
      n.classes = ["bot-message".toList, "slide-up".toList] ∧
      n.text = formatBotResponse (failureMarker ++ e) ∧
      (∀ t : JsString, ts = some t → t ≠ [] → n.time = some t) ∧
      ((ts = none ∨ ts = some []) → n.time = some (env.getCurrentTime s.now)) ∧
      (sendMessageResponse env
        (.response { error := some e, answer := ans, pfx := p, timestamp := ts })
        s).chatState.messages = s.chatState.messages ++
          [{ type := "bot".toList, content := failureMarker ++ e, timestamp := s.now }] := by
  obtain ⟨h1, h2⟩ := sendMessageResponse_error env
    { error := some e, answer := ans, pfx := p, timestamp := ts } e s l h rfl hne
  refine ⟨_, h1, rfl, rfl, ?_, ?_, h2⟩
  · intro t ht hn
    subst ht
    simp [shownTime, hn]
  · intro ht
    rcases ht with ht | ht <;> subst ht <;> rfl

/-- C4 at `{error: "oops", timestamp: "10:00 AM"}` on the sample page: the marker and `oops`,
and the time element holds `10:00 AM`. -/
theorem sendMessage_renders_error_witness :
    ∃ n : MessageNode,
      (sendMessageResponse sampleEnv
        (.response { error := some "oops".toList, answer := none, pfx := none,
                     timestamp := some "10:00 AM".toList })
        (fresh fullDom)).elements.messagesList = some ([] ++ [n]) ∧
      n.text = "âŒ oops".toList ∧ n.time = some "10:00 AM".toList := by
  obtain ⟨n, h1, _, h3, h4, _⟩ := sendMessage_renders_error sampleEnv "oops".toList none none
    (some "10:00 AM".toList) (fresh fullDom) [] rfl (by decide)
  exact ⟨n, h1, by rw [h3]; decide, h4 _ rfl (by decide)⟩

/-- C4 as stated fails when the error field or the timestamp is the empty string, and for a
timestamp that holds a character reference.  At `{error: "", timestamp: "10:00 AM"}` the error
branch is not taken, the missing answer raises a `TypeError`, and the node holds the generic
failure text and the client's time.  At `{error: "oops", timestamp: ""}` the time element holds
the client's time, not the timestamp.  At `{error: "oops", timestamp: "10 &amp; 5"}` the
timestamp is the markup of the time element, which reads `10 & 5`. -/
theorem sendMessage_empty_error_counterexample :
    ((sendMessageResponse sampleEnv
        (.response { error := some [], answer := none, pfx := none,
                     timestamp := some "10:00 AM".toList })
        (fresh fullDom)).elements.messagesList
      = some [{ id := 0, classes := ["bot-message".toList, "slide-up".toList],
                text := askFailedText, time := some "10:01 AM".toList }] ∧
      askFailedText ≠ formatBotResponse (failureMarker ++ [])) ∧
    ((sendMessageResponse sampleEnv
        (.response { error := some "oops".toList, answer := none, pfx := none,
                     timestamp := some [] })
        (fresh fullDom)).elements.messagesList
      = some [{ id := 0, classes := ["bot-message".toList, "slide-up".toList],
                text := "âŒ oops".toList, time := some "10:01 AM".toList }] ∧
      some "10:01 AM".toList ≠ some ([] : JsString)) ∧
    ((sendMessageResponse sampleEnv
        (.response { error := some "oops".toList, answer := none, pfx := none,
                     timestamp := some "10 &amp; 5".toList })
        (fresh fullDom)).elements.messagesList
      = some [{ id := 0, classes := ["bot-message".toList, "slide-up".toList],
                text := "âŒ oops".toList, time := some "10 &amp; 5".toList }] ∧
      decodeEntities "10 &amp; 5".toList = "10 & 5".toList ∧
      "10 & 5".toList ≠ "10 &amp; 5".toList) := by
  decide

/-! ## The substitutions of `formatBotResponse` -/

theorem replaceFrom_skip (d o c : JsString) (k : Nat) (s : JsString) :
    replaceFrom d o c k s = replaceFrom d o c 0 (s.drop k) := by
  induction k generalizing s with
  | zero => rfl
  | succ k ih =>
    cases s with
    | nil => simp [replaceFrom]
    | cons a as => simp [replaceFrom, ih]

theorem lazyGroup_some (d : JsString) (s g : JsString) (h : lazyGroup d s = some g) :
    ∃ rest, s = g ++ d ++ rest := by
  induction s generalizing g with
  | nil =>
    unfold lazyGroup at h
    split at h
    · rename_i hp
      cases d with
      | nil => injection h with h; subst h; exact ⟨[], rfl⟩
      | cons x xs => simp [List.isPrefixOf] at hp
    · cases h
  | cons a as ih =>
    unfold lazyGroup at h
    split at h
    · rename_i hp
      injection h with h
      subst h
      obtain ⟨t, ht⟩ := List.isPrefixOf_iff_prefix.mp hp
      exact ⟨t, by simpa using ht.symm⟩
    · split at h
      · cases h
      · cases hg : lazyGroup d as with
        | none => rw [hg] at h; cases h
        | some g' =>
          rw [hg] at h
          injection h with h
          subst h
          obtain ⟨rest, hr⟩ := ih g' hg
          exact ⟨rest, by rw [hr]; simp⟩

theorem matchAt_some (d s g : JsString) (h : matchAt d s = some g) :
    ∃ rest, s = d ++ g ++ d ++ rest := by
  unfold matchAt at h
  split at h
  · rename_i hp
    obtain ⟨t, ht⟩ := List.isPrefixOf_iff_prefix.mp hp
    subst ht
    rw [List.drop_left] at h
    obtain ⟨rest, hr⟩ := lazyGroup_some d t g h
    exact ⟨rest, by rw [hr]; simp⟩
  · cases h

theorem replaceFrom_of_match (d o c s g : JsString) (hd : d ≠ [])
    (h : matchAt d s = some g) :
    ∃ rest, s = d ++ g ++ d ++ rest ∧
      replaceFrom d o c 0 s = o ++ g ++ c ++ replaceFrom d o c 0 rest := by
  obtain ⟨rest, hr⟩ := matchAt_some d s g h
  refine ⟨rest, hr, ?_⟩
  cases s with
  | nil =>
    cases d with
    | nil => exact absurd rfl hd
    | cons x xs => simp at hr
  | cons a as =>
    have hlen : 1 ≤ d.length := by
      cases d with
      | nil => exact absurd rfl hd
      | cons x xs => simp
    have hdrop : as.drop (d.length + g.length + d.length - 1) = rest := by
      have h1 : as = (a :: as).drop 1 := rfl
      rw [h1, List.drop_drop, hr]
      have h2 : 1 + (d.length + g.length + d.length - 1) = (d ++ g ++ d).length := by
        simp only [List.length_append]; omega
      rw [h2, List.drop_left]
    simp only [replaceFrom, h]
    rw [replaceFrom_skip, hdrop]

theorem replaceFrom_of_no_match (d o c : JsString) (a : Char) (as : JsString)
    (h : matchAt d (a :: as) = none) :
    replaceFrom d o c 0 (a :: as) = a :: replaceFrom d o c 0 as := by
  simp only [replaceFrom, h]

theorem matchAt_of_ne_head (x : Char) (xs : JsString) (a : Char) (as : JsString)
    (h : a ≠ x) : matchAt (x :: xs) (a :: as) = none := by
  have h' : ¬ x = a := fun e => h e.symm
  simp [matchAt, List.isPrefixOf, h']

theorem replaceFrom_plain (x : Char) (xs o c pre rest : JsString)
    (hpre : ∀ a ∈ pre, a ≠ x) :
    replaceFrom (x :: xs) o c 0 (pre ++ rest) = pre ++ replaceFrom (x :: xs) o c 0 rest := by
  induction pre with
  | nil => rfl
  | cons a as ih =>
    have ha : a ≠ x := hpre a (List.mem_cons_self a as)
    have ih' := ih (fun b hb => hpre b (List.mem_cons_of_mem a hb))
    rw [List.cons_append, replaceFrom_of_no_match _ _ _ _ _ (matchAt_of_ne_head x xs a _ ha), ih']
    rfl

theorem lazyGroup_closed (x : Char) (xs g post : JsString)
    (hg : ∀ a ∈ g, a ≠ x ∧ isLineTerminator a = false) :
    lazyGroup (x :: xs) (g ++ (x :: xs) ++ post) = some g := by
  induction g with
  | nil =>
    have hp : (x :: xs).isPrefixOf (x :: xs ++ post) = true :=
      List.isPrefixOf_iff_prefix.mpr (List.prefix_append _ _)
    simp only [List.nil_append, List.cons_append] at hp ⊢
    unfold lazyGroup
    rw [if_pos hp]
  | cons a as ih =>
    have ha := hg a (List.mem_cons_self a as)
    have ih' := ih (fun b hb => hg b (List.mem_cons_of_mem a hb))
    have hx : ¬ x = a := fun e => ha.1 e.symm
    have hp : (x :: xs).isPrefixOf (a :: (as ++ (x :: xs) ++ post)) = false := by
      simp [List.isPrefixOf, hx]
    simp only [List.cons_append, List.append_assoc] at hp ih' ⊢
    unfold lazyGroup
    rw [if_neg (by rw [hp]; exact Bool.false_ne_true), if_neg (by rw [ha.2]; exact Bool.false_ne_true),
      ih']
    rfl

theorem matchAt_closed (x : Char) (xs g post : JsString)
    (hg : ∀ a ∈ g, a ≠ x ∧ isLineTerminator a = false) :
    matchAt (x :: xs) ((x :: xs) ++ g ++ (x :: xs) ++ post) = some g := by
  have hp : (x :: xs).isPrefixOf ((x :: xs) ++ g ++ (x :: xs) ++ post) = true := by
    rw [List.append_assoc, List.append_assoc]
    exact List.isPrefixOf_iff_prefix.mpr (List.prefix_append _ _)
  unfold matchAt
  rw [if_pos hp]
  have hd : ((x :: xs) ++ g ++ (x :: xs) ++ post).drop (x :: xs).length
      = g ++ (x :: xs) ++ post := by
    rw [List.append_assoc, List.append_assoc, List.drop_left, List.append_assoc]
  rw [hd]
  exact lazyGroup_closed x xs g post hg

/-- A delimited run within one line, before which no delimiter character stands, is replaced
by the tagged run, and the scan goes on after its closing delimiter. -/
theorem replaceFrom_closed (x : Char) (xs o c pre g post : JsString)
    (hpre : ∀ a ∈ pre, a ≠ x)
    (hg : ∀ a ∈ g, a ≠ x ∧ isLineTerminator a = false) :
    replaceFrom (x :: xs) o c 0 (pre ++ ((x :: xs) ++ g ++ (x :: xs) ++ post))
      = pre ++ (o ++ g ++ c ++ replaceFrom (x :: xs) o c 0 post) := by
  rw [replaceFrom_plain x xs o c pre _ hpre]
  obtain ⟨rest, h1, h2⟩ := replaceFrom_of_match (x :: xs) o c _ g (List.cons_ne_nil x xs)
    (matchAt_closed x xs g post hg)
  have hr : rest = post := by
    have h3 : (x :: xs) ++ g ++ (x :: xs) ++ post = ((x :: xs) ++ g ++ (x :: xs)) ++ rest := by
      rw [h1]
    exact (List.append_cancel_left h3).symm
  rw [h2, hr]

/-- The characters that the pattern's delimiter does not hold are kept, in their order. -/
theorem filter_sublist_replaceFrom (d o c : JsString) (p : Char → Bool) (hd : d ≠ [])
    (hp : d.filter p = []) (n : Nat) :
    ∀ s : JsString, s.length ≤ n → (s.filter p).Sublist (replaceFrom d o c 0 s) := by
  induction n with
  | zero =>
    intro s hs
    have : s = [] := List.length_eq_zero.mp (Nat.le_zero.mp hs)
    subst this
    exact List.Sublist.refl _
  | succ n ih =>
    intro s hs
    cases s with
    | nil => exact List.Sublist.refl _
    | cons a as =>
      cases hm : matchAt d (a :: as) with
      | none =>
        rw [replaceFrom_of_no_match d o c a as hm]
        have h1 := ih as (by simpa using hs)
        rw [List.filter_cons]
        split
        · exact h1.cons₂ a
        · exact h1.cons a
      | some g =>
        obtain ⟨rest, h1, h2⟩ := replaceFrom_of_match d o c _ g hd hm
        rw [h2]
        have hl : rest.length ≤ n := by
          have := congrArg List.length h1
          have hd1 : 1 ≤ d.length := by
            cases d with
            | nil => exact absurd rfl hd
            | cons y ys => simp
          simp only [List.length_append, List.length_cons] at this hs
          omega
        have h3 := ih rest hl
        rw [h1]
        simp only [List.filter_append, hp, List.nil_append, List.append_nil]
        rw [List.append_assoc, List.append_assoc]
        exact List.sublist_append_of_sublist_right
          ((List.filter_sublist g).append (List.sublist_append_of_sublist_right h3))

theorem replaceNewlines_append (a b : JsString) :
    replaceNewlines (a ++ b) = replaceNewlines a ++ replaceNewlines b := by
  induction a with
  | nil => rfl
  | cons x xs ih => simp [replaceNewlines, ih]

theorem replaceNewlines_plain (a : JsString) (h : ∀ x ∈ a, x ≠ '\n') :
    replaceNewlines a = a := by
  induction a with
  | nil => rfl
  | cons x xs ih =>
    have hx : x ≠ '\n' := h x (List.mem_cons_self x xs)
    simp [replaceNewlines, hx, ih (fun y hy => h y (List.mem_cons_of_mem x hy))]

theorem filter_sublist_replaceNewlines (s : JsString) :
    (s.filter (fun x => !decide (x = '\n'))).Sublist (replaceNewlines s) := by
  induction s with
  | nil => exact List.Sublist.refl _
  | cons x xs ih =>
    unfold replaceNewlines
    by_cases hx : x = '\n'
    · simp only [hx, List.filter_cons]
      exact List.sublist_append_of_sublist_right ih
    · simp only [hx, List.filter_cons]
      exact ih.cons₂ x

theorem ne_newline_of_not_lineTerminator (a : Char) (h : isLineTerminator a = false) :
    a ≠ '\n' := by
  intro e
  subst e
  revert h
  decide

theorem replaceBold_plain (pre rest : JsString) (hpre : ∀ a ∈ pre, a ≠ '*') :
    replaceBold (pre ++ rest) = pre ++ replaceBold rest :=
  replaceFrom_plain '*' ['*'] _ _ pre rest hpre

theorem replaceItalic_plain (pre rest : JsString) (hpre : ∀ a ∈ pre, a ≠ '*') :
    replaceItalic (pre ++ rest) = pre ++ replaceItalic rest :=
  replaceFrom_plain '*' [] _ _ pre rest hpre

theorem replaceBold_closed (pre x post : JsString) (hpre : ∀ a ∈ pre, a ≠ '*')
    (hx : ∀ a ∈ x, a ≠ '*' ∧ isLineTerminator a = false) :
    replaceBold (pre ++ ("**".toList ++ x ++ "**".toList ++ post))
      = pre ++ ("<strong>".toList ++ x ++ "</strong>".toList ++ replaceBold post) :=
  replaceFrom_closed '*' ['*'] _ _ pre x post hpre hx

theorem replaceItalic_closed (pre x post : JsString) (hpre : ∀ a ∈ pre, a ≠ '*')
    (hx : ∀ a ∈ x, a ≠ '*' ∧ isLineTerminator a = false) :
    replaceItalic (pre ++ ("*".toList ++ x ++ "*".toList ++ post))
      = pre ++ ("<em>".toList ++ x ++ "</em>".toList ++ replaceItalic post) :=
  replaceFrom_closed '*' [] _ _ pre x post hpre hx

/-- A single `*` that neither follows nor precedes another one is no match of the bold
pattern. -/
theorem replaceBold_single_star (post : JsString) (hpost : ∀ b bs, post = b :: bs → b ≠ '*') :
    replaceBold ('*' :: post) = '*' :: replaceBold post := by
  unfold replaceBold
  apply replaceFrom_of_no_match
  cases post with
  | nil => decide
  | cons b bs =>
    have hb : ¬ '*' = b := fun e => hpost b bs rfl e.symm
    simp [matchAt, List.isPrefixOf, hb]

theorem replaceBold_italic_run (pre x post : JsString) (hpre : ∀ a ∈ pre, a ≠ '*')
    (hne : x ≠ []) (hx : ∀ a ∈ x, a ≠ '*')
    (hpost : ∀ b bs, post = b :: bs → b ≠ '*') :
    replaceBold (pre ++ ("*".toList ++ x ++ "*".toList ++ post))
      = pre ++ ("*".toList ++ x ++ "*".toList ++ replaceBold post) := by
  rw [replaceBold_plain pre _ hpre]
  have h1 : "*".toList ++ x ++ "*".toList ++ post = '*' :: (x ++ '*' :: post) := by
    simp
  have h2 : replaceBold ('*' :: (x ++ '*' :: post)) = '*' :: replaceBold (x ++ '*' :: post) := by
    apply replaceBold_single_star
    intro b bs hb
    cases x with
    | nil => exact absurd rfl hne
    | cons y ys =>
      simp only [List.cons_append, List.cons.injEq] at hb
      rw [← hb.1]
      exact hx y (List.mem_cons_self y ys)
  rw [h1, h2, replaceBold_plain x _ hx, replaceBold_single_star post hpost]
  simp

theorem tagged_no_star (o c x : JsString) (ho : ∀ a ∈ o, a ≠ '*') (hc : ∀ a ∈ c, a ≠ '*')
    (hx : ∀ a ∈ x, a ≠ '*') : ∀ a ∈ o ++ x ++ c, a ≠ '*' := by
  intro a ha
  simp only [List.mem_append] at ha
  rcases ha with (ha | ha) | ha
  · exact ho a ha
  · exact hx a ha
  · exact hc a ha

/-- The bold rule of `formatBotResponse`. -/
theorem formatBotResponse_bold (pre x post : JsString) (hpre : ∀ a ∈ pre, a ≠ '*')
    (hx : ∀ a ∈ x, a ≠ '*' ∧ isLineTerminator a = false) :
    formatBotResponse (pre ++ ("**".toList ++ x ++ "**".toList ++ post))
      = replaceNewlines pre ++
        ("<strong>".toList ++ x ++ "</strong>".toList ++ formatBotResponse post) := by
  have hx1 : ∀ a ∈ x, a ≠ '*' := fun a ha => (hx a ha).1
  have hx2 : ∀ a ∈ x, a ≠ '\n' := fun a ha => ne_newline_of_not_lineTerminator a (hx a ha).2
  have ht : ∀ a ∈ "<strong>".toList ++ x ++ "</strong>".toList, a ≠ '*' :=
    tagged_no_star _ _ x (by decide) (by decide) hx1
  unfold formatBotResponse
  rw [replaceBold_closed pre x post hpre hx, replaceItalic_plain pre _ hpre,
    replaceItalic_plain _ _ ht, replaceNewlines_append, replaceNewlines_append,
    replaceNewlines_append, replaceNewlines_append, replaceNewlines_plain x hx2]
  rfl

/-- The italic rule of `formatBotResponse`. -/
theorem formatBotResponse_italic (pre x post : JsString) (hpre : ∀ a ∈ pre, a ≠ '*')
    (hne : x ≠ []) (hx : ∀ a ∈ x, a ≠ '*' ∧ isLineTerminator a = false)
    (hpost : ∀ b bs, post = b :: bs → b ≠ '*') :
    formatBotResponse (pre ++ ("*".toList ++ x ++ "*".toList ++ post))
      = replaceNewlines pre ++
        ("<em>".toList ++ x ++ "</em>".toList ++ formatBotResponse post) := by
  have hx1 : ∀ a ∈ x, a ≠ '*' := fun a ha => (hx a ha).1
  have hx2 : ∀ a ∈ x, a ≠ '\n' := fun a ha => ne_newline_of_not_lineTerminator a (hx a ha).2
  unfold formatBotResponse
  rw [replaceBold_italic_run pre x post hpre hne hx1 hpost,
    replaceItalic_closed pre x _ hpre hx, replaceNewlines_append, replaceNewlines_append,
    replaceNewlines_append, replaceNewlines_append, replaceNewlines_plain x hx2]
  rfl

/-- The line-break rule of `formatBotResponse`. -/
theorem formatBotResponse_newline (a b : JsString) (ha : ∀ c ∈ a, c ≠ '*') :
    formatBotResponse (a ++ '\n' :: b)
      = replaceNewlines a ++ ("<br>".toList ++ formatBotResponse b) := by
  have h1 : ∀ c ∈ a ++ ['\n'], c ≠ '*' := by
    intro c hc
    simp only [List.mem_append, List.mem_singleton] at hc
    rcases hc with hc | hc
    · exact ha c hc
    · rw [hc]; decide
  have h2 : a ++ '\n' :: b = (a ++ ['\n']) ++ b := by simp
  unfold formatBotResponse
  rw [h2, replaceBold_plain _ _ h1, replaceItalic_plain _ _ h1, replaceNewlines_append,
    replaceNewlines_append, List.append_assoc]
  rfl

/-- The characters of a bot text other than `*` and the newline are all in the markup, in
their order. -/
theorem formatBotResponse_keeps (t : JsString) :
    (t.filter (fun a => !decide (a = '*') && !decide (a = '\n'))).Sublist
      (formatBotResponse t) := by
  have hb : (t.filter (fun a => !decide (a = '*'))).Sublist (replaceBold t) :=
    filter_sublist_replaceFrom _ _ _ _ (by decide) (by decide) t.length t (Nat.le_refl _)
  have hi : ((replaceBold t).filter (fun a => !decide (a = '*'))).Sublist
      (replaceItalic (replaceBold t)) :=
    filter_sublist_replaceFrom _ _ _ _ (by decide) (by decide) _ _ (Nat.le_refl _)
  have h1 := hb.filter (fun a => !decide (a = '*'))
  rw [List.filter_filter] at h1
  simp only [Bool.and_self] at h1
  have h2 := (h1.trans hi).filter (fun a => !decide (a = '\n'))
  rw [List.filter_filter] at h2
  have h3 : (fun a : Char => (!decide (a = '\n') && !decide (a = '*')))
      = (fun a : Char => (!decide (a = '*') && !decide (a = '\n'))) := by
    funext a; exact Bool.and_comm _ _
  rw [h3] at h2
  exact h2.trans (filter_sublist_replaceNewlines _)

theorem formatBotResponse_plain (t : JsString) (h : ∀ a ∈ t, a ≠ '*' ∧ a ≠ '\n') :
    formatBotResponse t = t := by
  have h0 := replaceBold_plain t [] (fun a ha => (h a ha).1)
  have h1 := replaceItalic_plain t [] (fun a ha => (h a ha).1)
  rw [List.append_nil] at h0 h1
  unfold formatBotResponse
  have e1 : replaceBold ([] : JsString) = [] := rfl
  have e2 : replaceItalic ([] : JsString) = [] := rfl
  rw [h0, e1, List.append_nil, h1, e2, List.append_nil]
  exact replaceNewlines_plain t (fun a ha => (h a ha).2)

/-! ### Every match of the pattern -/

theorem isPrefixOf_append_right (d u v : JsString) (h : d.isPrefixOf u = true) :
    d.isPrefixOf (u ++ v) = true := by
  obtain ⟨t, ht⟩ := List.isPrefixOf_iff_prefix.mp h
  exact List.isPrefixOf_iff_prefix.mpr ⟨t ++ v, by rw [← ht, List.append_assoc]⟩

theorem isPrefixOf_of_append (d u v : JsString) (hl : d.length ≤ u.length)
    (h : d.isPrefixOf (u ++ v) = true) : d.isPrefixOf u = true := by
  have h1 : d <+: u ++ v := List.isPrefixOf_iff_prefix.mp h
  have h2 : u <+: u ++ v := List.prefix_append u v
  exact List.isPrefixOf_iff_prefix.mpr (List.prefix_of_prefix_length_le h1 h2 hl)

theorem isRun_nil (d : JsString) : isRun d [] = true := rfl

theorem isRun_cons (d : JsString) (a : Char) (g : JsString) :
    isRun d (a :: g) = true ↔
      isLineTerminator a = false ∧ d.isPrefixOf (a :: (g ++ d)) = false ∧ isRun d g = true := by
  simp only [isRun, oneLine, List.all_cons, List.length_cons, List.cons_append, freeOf,
    Bool.and_eq_true, Bool.not_eq_true']
  constructor
  · rintro ⟨⟨h1, h2⟩, h3, h4⟩
    exact ⟨h1, h3, h2, h4⟩
  · rintro ⟨h1, h3, h2, h4⟩
    exact ⟨⟨h1, h2⟩, h3, h4⟩

/-- The lazy group is the run, and every run is found. -/
theorem lazyGroup_eq_some_iff (y : Char) (ys u x : JsString) :
    lazyGroup (y :: ys) u = some x ↔
      isRun (y :: ys) x = true ∧ ∃ post, u = x ++ (y :: ys) ++ post := by
  induction u generalizing x with
  | nil =>
    constructor
    · intro h
      simp [lazyGroup, List.isPrefixOf] at h
    · rintro ⟨_, post, hp⟩
      have := congrArg List.length hp
      simp at this
      omega
  | cons a as ih =>
    constructor
    · intro h
      unfold lazyGroup at h
      split at h
      · rename_i hp
        injection h with h
        subst h
        obtain ⟨t, ht⟩ := List.isPrefixOf_iff_prefix.mp hp
        exact ⟨isRun_nil _, t, by simpa using ht.symm⟩
      · rename_i hp
        split at h
        · cases h
        · rename_i hterm
          cases hg : lazyGroup (y :: ys) as with
          | none => rw [hg] at h; cases h
          | some g =>
            rw [hg] at h
            injection h with h
            subst h
            obtain ⟨hrun, post, hpost⟩ := (ih g).mp hg
            refine ⟨(isRun_cons _ a g).mpr ⟨by simpa using hterm, ?_, hrun⟩, post, ?_⟩
            · cases hq : (y :: ys).isPrefixOf (a :: (g ++ (y :: ys))) with
              | false => rfl
              | true =>
                have := isPrefixOf_append_right _ _ post hq
                rw [List.cons_append, ← hpost] at this
                exact absurd this hp
            · rw [hpost]; simp
    · rintro ⟨hrun, post, hpost⟩
      cases x with
      | nil =>
        have hp : (y :: ys).isPrefixOf (a :: as) = true := by
          rw [hpost]
          exact List.isPrefixOf_iff_prefix.mpr ⟨post, by simp⟩
        unfold lazyGroup
        rw [if_pos hp]
      | cons b g =>
        obtain ⟨h1, h2, h3⟩ := (isRun_cons _ b g).mp hrun
        simp only [List.cons_append, List.cons.injEq] at hpost
        obtain ⟨hab, has⟩ := hpost
        subst hab
        have hp : (y :: ys).isPrefixOf (a :: as) = false := by
          cases hq : (y :: ys).isPrefixOf (a :: as) with
          | false => rfl
          | true =>
            have hq' : (y :: ys).isPrefixOf ((a :: (g ++ (y :: ys))) ++ post) = true := by
              rw [has] at hq
              simpa using hq
            have := isPrefixOf_of_append _ _ post (by simp; omega) hq'
            rw [h2] at this
            cases this
        have hg : lazyGroup (y :: ys) as = some g :=
          (ih g).mpr ⟨h3, post, has⟩
        unfold lazyGroup
        rw [if_neg (by rw [hp]; exact Bool.false_ne_true),
          if_neg (by rw [h1]; exact Bool.false_ne_true), hg]
        rfl

/-- A match stands at the head of `s` exactly when `s` begins with `d x d` for a run `x`. -/
theorem matchAt_eq_some_iff (y : Char) (ys s x : JsString) :
    matchAt (y :: ys) s = some x ↔
      isRun (y :: ys) x = true ∧ ∃ post, s = (y :: ys) ++ x ++ (y :: ys) ++ post := by
  constructor
  · intro h
    unfold matchAt at h
    split at h
    · rename_i hp
      obtain ⟨t, ht⟩ := List.isPrefixOf_iff_prefix.mp hp
      subst ht
      rw [List.drop_left] at h
      obtain ⟨hrun, post, hpost⟩ := (lazyGroup_eq_some_iff y ys t x).mp h
      exact ⟨hrun, post, by rw [hpost]; simp⟩
    · cases h
  · rintro ⟨hrun, post, hpost⟩
    have hs : s = (y :: ys) ++ (x ++ (y :: ys) ++ post) := by rw [hpost]; simp
    have hp : (y :: ys).isPrefixOf s = true := by
      rw [hs]; exact List.isPrefixOf_iff_prefix.mpr (List.prefix_append _ _)
    unfold matchAt
    rw [if_pos hp, hs, List.drop_left]
    exact (lazyGroup_eq_some_iff y ys _ x).mpr ⟨hrun, post, rfl⟩

/-- The scan relates every text to its result as the specification words it. -/
theorem replaceFrom_substituted (y : Char) (ys o c : JsString) (n : Nat) :
    ∀ s : JsString, s.length ≤ n →
      Substituted (y :: ys) o c s (replaceFrom (y :: ys) o c 0 s) := by
  induction n with
  | zero =>
    intro s hs
    have : s = [] := List.length_eq_zero.mp (Nat.le_zero.mp hs)
    subst this
    exact Substituted.done
  | succ n ih =>
    intro s hs
    cases s with
    | nil => exact Substituted.done
    | cons a as =>
      cases hm : matchAt (y :: ys) (a :: as) with
      | none =>
        rw [replaceFrom_of_no_match _ o c a as hm]
        refine Substituted.keep a as _ ?_ (ih as (by simpa using hs))
        intro x post hrun hpost
        have := (matchAt_eq_some_iff y ys (a :: as) x).mpr ⟨hrun, post, hpost⟩
        rw [hm] at this
        cases this
      | some g =>
        obtain ⟨rest, h1, h2⟩ := replaceFrom_of_match (y :: ys) o c _ g (List.cons_ne_nil y ys) hm
        have hrun := ((matchAt_eq_some_iff y ys (a :: as) g).mp hm).1
        have hl : rest.length ≤ n := by
          have := congrArg List.length h1
          simp only [List.length_append, List.length_cons] at this hs
          omega
        rw [h2, h1]
        exact Substituted.hit g rest _ hrun (ih rest hl)

/-- The specification fixes the result: it is the one the scan gives. -/
theorem substituted_unique (y : Char) (ys o c s r : JsString)
    (h : Substituted (y :: ys) o c s r) : r = replaceFrom (y :: ys) o c 0 s := by
  induction h with
  | done => rfl
  | hit x post r hrun _ ih =>
    have hm : matchAt (y :: ys) ((y :: ys) ++ x ++ (y :: ys) ++ post) = some x :=
      (matchAt_eq_some_iff y ys _ x).mpr ⟨hrun, post, rfl⟩
    obtain ⟨rest, h1, h2⟩ := replaceFrom_of_match (y :: ys) o c _ x (List.cons_ne_nil y ys) hm
    have hr : rest = post := (List.append_cancel_left h1).symm
    rw [h2, hr, ih]
  | keep a s r hno _ ih =>
    have hm : matchAt (y :: ys) (a :: s) = none := by
      cases hq : matchAt (y :: ys) (a :: s) with
      | none => rfl
      | some x =>
        obtain ⟨hrun, post, hpost⟩ := (matchAt_eq_some_iff y ys (a :: s) x).mp hq
        exact absurd hpost (hno x post hrun)
    rw [replaceFrom_of_no_match _ o c a s hm, ih]

/-- A stretch of text in which the delimiter stands nowhere is kept. -/
theorem replaceFrom_free (y : Char) (ys o c pre rest : JsString)
    (h : freeOf (y :: ys) pre.length (pre ++ rest) = true) :
    replaceFrom (y :: ys) o c 0 (pre ++ rest) = pre ++ replaceFrom (y :: ys) o c 0 rest := by
  induction pre with
  | nil => rfl
  | cons a as ih =>
    have h0 : (!(y :: ys).isPrefixOf (a :: (as ++ rest))
        && freeOf (y :: ys) as.length (as ++ rest)) = true := h
    have h1 : (y :: ys).isPrefixOf (a :: (as ++ rest)) = false := by
      cases hq : (y :: ys).isPrefixOf (a :: (as ++ rest)) with
      | false => rfl
      | true => rw [hq] at h0; cases h0
    have h2 : freeOf (y :: ys) as.length (as ++ rest) = true := by
      rw [h1] at h0
      exact h0
    have hm : matchAt (y :: ys) (a :: (as ++ rest)) = none := by
      unfold matchAt
      rw [if_neg (by rw [h1]; exact Bool.false_ne_true)]
    rw [List.cons_append, replaceFrom_of_no_match _ o c a _ hm, ih h2]
    rfl

/-- The first `d x d` of a text, for a run `x`: it becomes the tagged run, what stands before
it is kept, and the scan goes on after its closing `d`. -/
theorem replaceFrom_run (y : Char) (ys o c pre x post : JsString)
    (hpre : freeOf (y :: ys) pre.length (pre ++ ((y :: ys) ++ x ++ (y :: ys) ++ post)) = true)
    (hx : isRun (y :: ys) x = true) :
    replaceFrom (y :: ys) o c 0 (pre ++ ((y :: ys) ++ x ++ (y :: ys) ++ post))
      = pre ++ (o ++ x ++ c ++ replaceFrom (y :: ys) o c 0 post) := by
  rw [replaceFrom_free y ys o c pre _ hpre]
  have hm : matchAt (y :: ys) ((y :: ys) ++ x ++ (y :: ys) ++ post) = some x :=
    (matchAt_eq_some_iff y ys _ x).mpr ⟨hx, post, rfl⟩
  obtain ⟨rest, h1, h2⟩ := replaceFrom_of_match (y :: ys) o c _ x (List.cons_ne_nil y ys) hm
  have hr : rest = post := (List.append_cancel_left h1).symm
  rw [h2, hr]

theorem replaceNewlines_cons_newline (a b : JsString) :
    replaceNewlines (a ++ '\n' :: b)
      = replaceNewlines a ++ ("<br>".toList ++ replaceNewlines b) := by
  rw [replaceNewlines_append]
  rfl

/-- C5, as the code has it.  `formatBotResponse` applies three substitutions in this order,
each reading the whole result of the one before from the left.  First the bold one: where a
`**x**` starts whose `x` holds no line terminator and is closed by the first `**` after the
opening one, it becomes `<strong>x</strong>` and the reading goes on after the closing `**`;
a character at which no such `**x**` starts is kept.  Then the same with `*x*` and
`<em>x</em>`.  Then every newline becomes `<br>`.  Each substitution is the only result that
fits this description.  So the first `**x**` (or `*x*`) of a text becomes the tagged run and
what stands before it is kept; for a run and a text before it without `*` the whole markup is
the tagged run between the markup of the two sides.  The sample text gives the sample markup.
Every character other than `*` and the newline is kept, `<` and `>` too: a text without `*`
and newline is returned as it is. -/
theorem formatBotResponse_substitutions (t : JsString) :
    formatBotResponse t = replaceNewlines (replaceItalic (replaceBold t)) ∧
    Substituted "**".toList "<strong>".toList "</strong>".toList t (replaceBold t) ∧
    (∀ r : JsString, Substituted "**".toList "<strong>".toList "</strong>".toList t r →
      r = replaceBold t) ∧
    Substituted "*".toList "<em>".toList "</em>".toList (replaceBold t)
      (replaceItalic (replaceBold t)) ∧
    (∀ r : JsString, Substituted "*".toList "<em>".toList "</em>".toList (replaceBold t) r →
      r = replaceItalic (replaceBold t)) ∧
    (∀ pre x post : JsString, t = pre ++ ("**".toList ++ x ++ "**".toList ++ post) →
      freeOf "**".toList pre.length t = true → isRun "**".toList x = true →
      replaceBold t = pre ++ ("<strong>".toList ++ x ++ "</strong>".toList ++ replaceBold post)) ∧
    (∀ pre x post : JsString,
      replaceBold t = pre ++ ("*".toList ++ x ++ "*".toList ++ post) →
      freeOf "*".toList pre.length (replaceBold t) = true → isRun "*".toList x = true →
      replaceItalic (replaceBold t)
        = pre ++ ("<em>".toList ++ x ++ "</em>".toList ++ replaceItalic post)) ∧
    (∀ a b : JsString, replaceItalic (replaceBold t) = a ++ '\n' :: b →
      formatBotResponse t = replaceNewlines a ++ ("<br>".toList ++ replaceNewlines b)) ∧
    ((∀ c ∈ replaceItalic (replaceBold t), c ≠ '\n') →
      formatBotResponse t = replaceItalic (replaceBold t)) ∧
    (∀ pre x post : JsString, t = pre ++ ("**".toList ++ x ++ "**".toList ++ post) →
      (∀ a ∈ pre, a ≠ '*') → (∀ a ∈ x, a ≠ '*' ∧ isLineTerminator a = false) →
      formatBotResponse t = replaceNewlines pre ++
        ("<strong>".toList ++ x ++ "</strong>".toList ++ formatBotResponse post)) ∧
    (∀ pre x post : JsString, t = pre ++ ("*".toList ++ x ++ "*".toList ++ post) →
      (∀ a ∈ pre, a ≠ '*') → x ≠ [] → (∀ a ∈ x, a ≠ '*' ∧ isLineTerminator a = false) →
      (∀ b bs, post = b :: bs → b ≠ '*') →
      formatBotResponse t = replaceNewlines pre ++
        ("<em>".toList ++ x ++ "</em>".toList ++ formatBotResponse post)) ∧
    (∀ a b : JsString, t = a ++ '\n' :: b → (∀ c ∈ a, c ≠ '*') →
      formatBotResponse t = replaceNewlines a ++ ("<br>".toList ++ formatBotResponse b)) ∧
    formatBotResponse "**bold** and *italic*\nline2".toList
      = "<strong>bold</strong> and <em>italic</em><br>line2".toList ∧
    ((∀ a ∈ t, a ≠ '*' ∧ a ≠ '\n') → formatBotResponse t = t) ∧
    (t.filter (fun a => !decide (a = '*') && !decide (a = '\n'))).Sublist
      (formatBotResponse t) := by
  refine ⟨rfl, replaceFrom_substituted '*' ['*'] _ _ t.length t (Nat.le_refl _),
    fun r hr => substituted_unique '*' ['*'] _ _ t r hr,
    replaceFrom_substituted '*' [] _ _ _ _ (Nat.le_refl _),
    fun r hr => substituted_unique '*' [] _ _ _ r hr,
    ?_, ?_, ?_, ?_, ?_, ?_, ?_, by decide, formatBotResponse_plain t, formatBotResponse_keeps t⟩
  · intro pre x post e h1 h2
    rw [e] at h1 ⊢
    exact replaceFrom_run '*' ['*'] _ _ pre x post h1 h2
  · intro pre x post e h1 h2
    rw [e] at h1 ⊢
    exact replaceFrom_run '*' [] _ _ pre x post h1 h2
  · intro a b e
    unfold formatBotResponse
    rw [e]
    exact replaceNewlines_cons_newline a b
  · intro h
    exact replaceNewlines_plain _ h
  · intro pre x post e h1 h2
    rw [e]
    exact formatBotResponse_bold pre x post h1 h2
  · intro pre x post e h1 h2 h3 h4
    rw [e]
    exact formatBotResponse_italic pre x post h1 h2 h3 h4
  · intro a b e h1
    rw [e]
    exact formatBotResponse_newline a b h1

/-- C5 on four texts.  In `5 * 3 = **15**` the lone `*` before the run is kept and `15` is the
bold run; in `**a*b**` the run is `a*b`; in `<i>a</i> **b**` the markup before the run is kept
with its `<` and `>`; `<i>a</i>` is returned as it is. -/
theorem formatBotResponse_substitutions_witness :
    replaceBold "5 * 3 = **15**".toList = "5 * 3 = <strong>15</strong>".toList ∧
    replaceBold "**a*b**".toList = "<strong>a*b</strong>".toList ∧
    formatBotResponse "<i>a</i> **b**".toList = "<i>a</i> <strong>b</strong>".toList ∧
    formatBotResponse "<i>a</i>".toList = "<i>a</i>".toList :=
  ⟨(formatBotResponse_substitutions "5 * 3 = **15**".toList).2.2.2.2.2.1
      "5 * 3 = ".toList "15".toList [] (by decide) (by decide) (by decide),
   (formatBotResponse_substitutions "**a*b**".toList).2.2.2.2.2.1
      [] "a*b".toList [] (by decide) (by decide) (by decide),
   (formatBotResponse_substitutions "<i>a</i> **b**".toList).2.2.2.2.2.2.2.2.2.1
      "<i>a</i> ".toList "b".toList [] (by decide) (by decide) (by decide),
   (formatBotResponse_substitutions "<i>a</i>".toList).2.2.2.2.2.2.2.2.2.2.2.2.2.1 (by decide)⟩

/-- C5 as stated fails for a run that spans a line break: in `**a`, newline, `b**` the bold
pattern has no match, the italic pattern then matches each `**` with an empty run, and the
result is not `<strong>a<br>b</strong>`. -/
theorem formatBotResponse_multiline_counterexample :
    formatBotResponse "**a\nb**".toList = "<em></em>a<br>b<em></em>".toList ∧
    formatBotResponse "**a\nb**".toList ≠ "<strong>a<br>b</strong>".toList := by
  decide

/-! ## Send button and character counter -/

theorem jsLength_eq_zero (v : JsString) : jsLength v = 0 ↔ v = [] := by
  cases v with
  | nil => simp [jsLength]
  | cons c cs =>
    have h : 1 ≤ utf16Units c := by unfold utf16Units; split <;> omega
    simp only [jsLength, reduceCtorEq, iff_false]
    omega

theorem dropWhile_eq_nil (p : Char → Bool) (v : JsString) :
    v.dropWhile p = [] ↔ ∀ c ∈ v, p c = true := by
  induction v with
  | nil => simp
  | cons a as ih =>
    by_cases ha : p a = true
    · simp [List.dropWhile, ha, ih]
    · simp [List.dropWhile, ha]

theorem dropWhile_all_imp (p : Char → Bool) (v : JsString)
    (h : ∀ c ∈ v.dropWhile p, p c = true) : v.dropWhile p = [] := by
  induction v with
  | nil => rfl
  | cons a as ih =>
    by_cases ha : p a = true
    · simp only [List.dropWhile, ha] at h ⊢
      exact ih h
    · have hd : (a :: as).dropWhile p = a :: as := by simp [List.dropWhile, ha]
      rw [hd] at h
      exact absurd (h a (List.mem_cons_self a as)) ha

theorem trim_eq_nil (v : JsString) : trim v = [] ↔ ∀ c ∈ v, isTrimChar c = true := by
  unfold trim
  rw [List.reverse_eq_nil_iff, dropWhile_eq_nil]
  constructor
  · intro h
    have h' : ∀ c ∈ v.dropWhile isTrimChar, isTrimChar c = true :=
      fun c hc => h c (List.mem_reverse.mpr hc)
    exact (dropWhile_eq_nil isTrimChar v).mp (dropWhile_all_imp isTrimChar v h')
  · intro h c hc
    rw [(dropWhile_eq_nil isTrimChar v).mpr h] at hc
    simp at hc

/-- C6. On a page with the send button and the input, after `updateSendButton` the button is
disabled exactly when the trimmed input value has length 0, which is when every character of
the value is white space or a line terminator. -/
theorem updateSendButton_disabled_iff (s : State) (b : Bool) (input : InputEl)
    (hb : s.elements.sendBtn = some b) (hi : s.elements.userInput = some input) :
    ∃ d : Bool, (updateSendButton s).elements.sendBtn = some d ∧
      (d = true ↔ jsLength (trim input.value) = 0) ∧
      (d = true ↔ ∀ c ∈ input.value, isTrimChar c = true) := by
  have e : (updateSendButton s).elements.sendBtn
      = some (!decide (jsLength (trim input.value) > 0)) := by
    unfold updateSendButton
    rw [hb, hi]
  have h1 : (!decide (jsLength (trim input.value) > 0)) = true
      ↔ jsLength (trim input.value) = 0 := by
    simp
  refine ⟨_, e, h1, ?_⟩
  rw [h1, jsLength_eq_zero, trim_eq_nil]

/-- C6 on the sample page: disabled for an input of blanks, enabled for ` hi `. -/
theorem updateSendButton_disabled_iff_witness :
    (updateSendButton (onInput "  \n".toList 40 (fresh fullDom))).elements.sendBtn = some true ∧
    (updateSendButton (onInput " hi ".toList 40 (fresh fullDom))).elements.sendBtn
      = some false := by
  obtain ⟨d, h1, h2, _⟩ := updateSendButton_disabled_iff
    (onInput "  \n".toList 40 (fresh fullDom)) true
    { value := "  \n".toList, scrollHeight := 40, height := some 40 } rfl rfl
  obtain ⟨d', h1', h2', _⟩ := updateSendButton_disabled_iff
    (onInput " hi ".toList 40 (fresh fullDom)) false
    { value := " hi ".toList, scrollHeight := 40, height := some 40 } rfl rfl
  have hd : d = true := h2.mpr (by decide)
  have hd' : d' = false := by
    cases d' with
    | false => rfl
    | true => exact absurd (h2'.mp rfl) (by decide)
  rw [h1, h1', hd, hd']
  exact ⟨rfl, rfl⟩

theorem jsLength_replicate (n : Nat) : jsLength (List.replicate n 'a') = n := by
  induction n with
  | zero => rfl
  | succ k ih =>
    rw [List.replicate_succ, jsLength, ih]
    have : utf16Units 'a' = 1 := by decide
    omega

/-- C7. On a page with the input and the counter, `updateCharCounter` colours the counter by
the length `n` of the input value: the default colour exactly when `n ≤ 1500`, the warning
colour exactly when `1501 ≤ n ≤ 1800`, the error colour exactly when `n > 1800`. -/
theorem updateCharCounter_color (s : State) (input : InputEl) (counter : CharCountEl)
    (hi : s.elements.userInput = some input) (hc : s.elements.charCount = some counter) :
    ∃ c : CharCountEl, (updateCharCounter s).elements.charCount = some c ∧
      (c.color = defaultColor ↔ jsLength input.value ≤ 1500) ∧
      (c.color = warningColor ↔ 1501 ≤ jsLength input.value ∧ jsLength input.value ≤ 1800) ∧
      (c.color = errorColor ↔ jsLength input.value > 1800) := by
  have hwd : warningColor ≠ defaultColor := by decide
  have hed : errorColor ≠ defaultColor := by decide
  have hew : errorColor ≠ warningColor := by decide
  refine ⟨_, by unfold updateCharCounter; rw [hi, hc], ?_, ?_, ?_⟩
  · dsimp only
    split
    · exact ⟨fun h => absurd h hed, fun h => by omega⟩
    · split
      · exact ⟨fun h => absurd h hwd, fun h => by omega⟩
      · exact ⟨fun _ => by omega, fun _ => rfl⟩
  · dsimp only
    split
    · exact ⟨fun h => absurd h hew, fun h => by omega⟩
    · split
      · exact ⟨fun _ => by omega, fun _ => rfl⟩
      · exact ⟨fun h => absurd h.symm hwd, fun h => by omega⟩
  · dsimp only
    split
    · exact ⟨fun _ => by omega, fun _ => rfl⟩
    · split
      · exact ⟨fun h => absurd h.symm hew, fun h => by omega⟩
      · exact ⟨fun h => absurd h.symm hed, fun h => by omega⟩

/-- C7 on the sample page with 1500, 1501 and 1801 characters in the input. -/
theorem updateCharCounter_color_witness :
    (∃ c : CharCountEl,
      (updateCharCounter (typed (List.replicate 1500 'a'))).elements.charCount = some c ∧
      c.color = defaultColor) ∧
    (∃ c : CharCountEl,
      (updateCharCounter (typed (List.replicate 1501 'a'))).elements.charCount = some c ∧
      c.color = warningColor) ∧
    (∃ c : CharCountEl,
      (updateCharCounter (typed (List.replicate 1801 'a'))).elements.charCount = some c ∧
      c.color = errorColor) := by
  refine ⟨?_, ?_, ?_⟩
  · obtain ⟨c, h1, h2, _, _⟩ := updateCharCounter_color (typed (List.replicate 1500 'a'))
      { value := List.replicate 1500 'a', scrollHeight := 40, height := none }
      { textContent := "0".toList, color := [] } rfl rfl
    exact ⟨c, h1, h2.mpr (by rw [jsLength_replicate])⟩
  · obtain ⟨c, h1, _, h2, _⟩ := updateCharCounter_color (typed (List.replicate 1501 'a'))
      { value := List.replicate 1501 'a', scrollHeight := 40, height := none }
      { textContent := "0".toList, color := [] } rfl rfl
    exact ⟨c, h1, h2.mpr (by rw [jsLength_replicate]; omega)⟩
  · obtain ⟨c, h1, _, _, h2⟩ := updateCharCounter_color (typed (List.replicate 1801 'a'))
      { value := List.replicate 1801 'a', scrollHeight := 40, height := none }
      { textContent := "0".toList, color := [] } rfl rfl
    exact ⟨c, h1, h2.mpr (by rw [jsLength_replicate]; omega)⟩

/-! ## Speech capture -/

/-- C8. `speechRecognition.stop` is idempotent.  After `stop` the recording flag is false; a
second `stop` right after it leaves the whole state as it is: the page, `chatState` and the
effect log, so it makes no call to the engine.  The two calls together call the engine's
`stop` once when an engine exists and the flag was true before the first call, and never
otherwise. -/
theorem stop_idempotent (s : State) :
    (stop s).chatState.isRecording = false ∧
    stop (stop s) = stop s ∧
    (stop (stop s)).effects = (stop s).effects ∧
    (stop (stop s)).effects = s.effects ++
      (if s.chatState.recognition.isSome = true ∧ s.chatState.isRecording = true
        then [Effect.recognitionStop] else []) ∧
    stopCalls (stop (stop s)).effects ≤ stopCalls s.effects + 1 := by
  obtain ⟨⟨st, rec, isRec, msgs, wel⟩, ⟨e1, e2, e3, e4, e5, e6, e7, e8, e9, modal, e11, btn⟩,
    eff, tm, nw, ni⟩ := s
  cases rec <;> cases isRec <;> cases modal <;> cases btn <;>
    simp [stop, stopCalls]

/-! ## The welcome panel -/

theorem WelcomeInv.of_eq {dom : Elements} {s s' : State} (h : WelcomeInv dom s)
    (h1 : s'.elements.messagesList.isSome = s.elements.messagesList.isSome)
    (h2 : s'.elements.welcomeHidden = s.elements.welcomeHidden)
    (h3 : s'.chatState.isWelcomeVisible = s.chatState.isWelcomeVisible) :
    WelcomeInv dom s' := by
  unfold WelcomeInv at *
  rw [h1, h2, h3]
  exact h

theorem scrollToBottom_inv {dom : Elements} {s : State} (h : WelcomeInv dom s) :
    WelcomeInv dom (scrollToBottom s) := by
  unfold scrollToBottom; split <;> exact h

theorem removeAnimation_inv {dom : Elements} {s : State} (node : Nat) (an : JsString)
    (h : WelcomeInv dom s) : WelcomeInv dom (removeAnimation node an s) := by
  unfold removeAnimation
  split
  · rename_i l hl
    exact h.of_eq (by rw [hl]; rfl) rfl rfl
  · exact h

theorem showLoading_inv {dom : Elements} {s : State} (h : WelcomeInv dom s) :
    WelcomeInv dom (showLoading s) := by
  unfold showLoading; split <;> exact h

theorem hideLoading_inv {dom : Elements} {s : State} (h : WelcomeInv dom s) :
    WelcomeInv dom (hideLoading s) := by
  unfold hideLoading; split <;> exact h

theorem showWelcome_inv {dom : Elements} {s : State} (h : WelcomeInv dom s) :
    WelcomeInv dom (showWelcome s) := by
  unfold showWelcome
  split
  · rename_i w hw
    refine ⟨h.1, ?_, fun _ => rfl⟩
    have := h.2.1
    rw [hw] at this
    exact this
  · exact h

theorem hideWelcome_inv {dom : Elements} {s : State} (h : WelcomeInv dom s) :
    WelcomeInv dom (hideWelcome s) := by
  unfold hideWelcome
  split
  · rename_i w hw
    refine ⟨h.1, ?_, fun hn => by cases hn⟩
    have := h.2.1
    rw [hw] at this
    exact this
  · exact h

theorem updateCharCounter_inv {dom : Elements} {s : State} (h : WelcomeInv dom s) :
    WelcomeInv dom (updateCharCounter s) := by
  unfold updateCharCounter; split <;> exact h

theorem updateSendButton_inv {dom : Elements} {s : State} (h : WelcomeInv dom s) :
    WelcomeInv dom (updateSendButton s) := by
  unfold updateSendButton; split <;> exact h

theorem autoResizeTextarea_inv {dom : Elements} {s : State} (h : WelcomeInv dom s) :
    WelcomeInv dom (autoResizeTextarea s) := by
  unfold autoResizeTextarea; split <;> exact h

theorem showUploadStatus_inv {dom : Elements} {s : State} (m t : JsString)
    (h : WelcomeInv dom s) : WelcomeInv dom (showUploadStatus m t s) := by
  unfold showUploadStatus
  split
  · exact h
  · dsimp only; split <;> exact h

theorem clearUploadStatus_inv {dom : Elements} {s : State} (h : WelcomeInv dom s) :
    WelcomeInv dom (clearUploadStatus s) := by
  unfold clearUploadStatus; split <;> exact h

theorem appendMessage_inv {dom : Elements} {s : State} (cls an tx : JsString)
    (tm : Option JsString) (l l0 : List MessageNode) (hl : s.elements.messagesList = some l0)
    (h : WelcomeInv dom s) : WelcomeInv dom (appendMessage cls an tx tm l s) := by
  have h1 : s.elements.messagesList.isSome = true := by rw [hl]; rfl
  unfold appendMessage
  apply scrollToBottom_inv
  exact h.of_eq (by rw [h1]; rfl) rfl rfl

theorem addUserMessage_inv {dom : Elements} {s : State} (env : Env) (t : JsString)
    (h : WelcomeInv dom s) : WelcomeInv dom (addUserMessage env t s) := by
  unfold addUserMessage
  split
  · exact h
  · rename_i l hl
    dsimp only
    have h1 : WelcomeInv dom (if s.chatState.isWelcomeVisible = true then hideWelcome s else s) := by
      split
      · exact hideWelcome_inv h
      · exact h
    have h2 : (if s.chatState.isWelcomeVisible = true then hideWelcome s else s).elements.messagesList
        = some l := by
      split
      · unfold hideWelcome; split <;> exact hl
      · exact hl
    exact (appendMessage_inv _ _ _ _ l l h2 h1).of_eq rfl rfl rfl

theorem addBotMessage_inv {dom : Elements} {s s' : State} (env : Env)
    (c ts : Option JsString) (h : WelcomeInv dom s) (e : addBotMessage env c ts s = some s') :
    WelcomeInv dom s' := by
  unfold addBotMessage at e
  split at e
  · injection e with e; subst e; exact h
  · rename_i l hl
    split at e
    · cases e
    · injection e with e
      subst e
      exact (appendMessage_inv _ _ _ _ l l hl h).of_eq rfl rfl rfl

theorem addSystemMessage_inv {dom : Elements} {s : State} (t : JsString)
    (h : WelcomeInv dom s) : WelcomeInv dom (addSystemMessage t s) := by
  unfold addSystemMessage
  split
  · exact h
  · rename_i l hl
    exact appendMessage_inv _ _ _ _ l l hl h

theorem clearMessages_inv {dom : Elements} {s : State} (h : WelcomeInv dom s) :
    WelcomeInv dom (clearMessages s) := by
  unfold clearMessages
  apply showWelcome_inv
  dsimp only
  split
  · rename_i l hl
    exact h.of_eq (by rw [hl]; rfl) rfl rfl
  · exact h.of_eq rfl rfl rfl

theorem speechInit_inv {dom : Elements} {s : State} (supported : Bool)
    (h : WelcomeInv dom s) : WelcomeInv dom (speechInit supported s) := by
  unfold speechInit
  split
  · exact h
  · split <;> exact h

theorem onstart_inv {dom : Elements} {s : State} (h : WelcomeInv dom s) :
    WelcomeInv dom (onstart s) := by
  unfold onstart
  dsimp only
  split <;> split <;> exact h

theorem stop_inv {dom : Elements} {s : State} (h : WelcomeInv dom s) :
    WelcomeInv dom (stop s) := by
  unfold stop
  dsimp only
  split <;> split <;> split <;> exact h

theorem start_inv {dom : Elements} {s : State} (h : WelcomeInv dom s) :
    WelcomeInv dom (start s) := by
  unfold start; split <;> exact h

theorem onInput_inv {dom : Elements} {s : State} (v : JsString) (sh : Nat)
    (h : WelcomeInv dom s) : WelcomeInv dom (onInput v sh s) := by
  unfold onInput
  split
  · exact updateSendButton_inv (updateCharCounter_inv (autoResizeTextarea_inv h))
  · exact h

theorem onresult_inv {dom : Elements} {s : State} (r : List (JsString × Bool)) (i sh : Nat)
    (h : WelcomeInv dom s) : WelcomeInv dom (onresult r i sh s) := by
  unfold onresult
  dsimp only
  split
  · exact updateSendButton_inv (updateCharCounter_inv (autoResizeTextarea_inv h))
  · exact h

theorem onerror_inv {dom : Elements} {s : State} (h : WelcomeInv dom s) :
    WelcomeInv dom (onerror s) :=
  addSystemMessage_inv _ (stop_inv h)

theorem statusUpdateRequest_inv {dom : Elements} {s : State} (h : WelcomeInv dom s) :
    WelcomeInv dom (statusUpdateRequest s) := h

theorem statusUpdateResponse_inv {dom : Elements} {s : State} (o : Outcome JsString)
    (h : WelcomeInv dom s) : WelcomeInv dom (statusUpdateResponse o s) := by
  unfold statusUpdateResponse
  split
  · exact h
  · split <;> exact h

theorem resetFileInput_inv {dom : Elements} {s : State} (h : WelcomeInv dom s) :
    WelcomeInv dom (resetFileInput s) := by
  unfold resetFileInput; split <;> exact h

theorem uploadFileRequest_inv {dom : Elements} {s : State} (env : Env) (f : File)
    (h : WelcomeInv dom s) : WelcomeInv dom (uploadFileRequest env f s) :=
  showUploadStatus_inv _ _ (showLoading_inv h)

theorem uploadFileResponse_inv {dom : Elements} {s : State} (o : Outcome UploadData)
    (h : WelcomeInv dom s) : WelcomeInv dom (uploadFileResponse o s) := by
  unfold uploadFileResponse
  split
  · dsimp only
    apply resetFileInput_inv
    split
    · exact addSystemMessage_inv _
        (statusUpdateRequest_inv (showUploadStatus_inv _ _ (hideLoading_inv h)))
    · exact showUploadStatus_inv _ _ (hideLoading_inv h)
  · exact resetFileInput_inv (showUploadStatus_inv _ _ (hideLoading_inv h))

theorem handleFileChange_inv {dom : Elements} {s : State} (env : Env) (f : Option File)
    (h : WelcomeInv dom s) : WelcomeInv dom (handleFileChange env f s) := by
  unfold handleFileChange
  split
  · exact h
  · split
    · exact resetFileInput_inv (showUploadStatus_inv _ _ h)
    · split
      · exact resetFileInput_inv (showUploadStatus_inv _ _ h)
      · exact uploadFileRequest_inv env _ h

theorem clearInput_inv {dom : Elements} {s : State} (h : WelcomeInv dom s) :
    WelcomeInv dom (clearInput s) := by
  unfold clearInput; split <;> exact h

theorem sendMessageRequest_inv {dom : Elements} {s : State} (env : Env)
    (h : WelcomeInv dom s) : WelcomeInv dom (sendMessageRequest env s) := by
  unfold sendMessageRequest
  split
  · exact h
  · dsimp only
    split
    · exact h
    · exact showLoading_inv (updateSendButton_inv (updateCharCounter_inv
        (autoResizeTextarea_inv (clearInput_inv (addUserMessage_inv env _ h)))))

theorem sendMessageResponse_inv {dom : Elements} {s : State} (env : Env) (o : Outcome AskData)
    (h : WelcomeInv dom s) : WelcomeInv dom (sendMessageResponse env o s) := by
  have hf : ∀ s0 : State, WelcomeInv dom s0 →
      WelcomeInv dom ((addBotMessage env (some askFailedText) none (hideLoading s0)).getD s0) := by
    intro s0 h0
    cases e : addBotMessage env (some askFailedText) none (hideLoading s0) with
    | none => exact h0
    | some s1 => exact addBotMessage_inv env _ _ (hideLoading_inv h0) e
  unfold sendMessageResponse
  dsimp only
  split
  · exact hf s h
  · split
    · rename_i s2 e
      split at e
      · exact addBotMessage_inv env _ _ (hideLoading_inv h) e
      · exact addBotMessage_inv env _ _ (hideLoading_inv h) e
    · exact hf _ (hideLoading_inv h)

theorem clearChatRequest_inv {dom : Elements} {s : State} (c : Bool)
    (h : WelcomeInv dom s) : WelcomeInv dom (clearChatRequest c s) := by
  unfold clearChatRequest
  split
  · exact showLoading_inv h
  · exact h

theorem clearChatResponse_inv {dom : Elements} {s : State} (o : Outcome ClearData)
    (h : WelcomeInv dom s) : WelcomeInv dom (clearChatResponse o s) := by
  unfold clearChatResponse
  split
  · dsimp only
    split
    · exact addSystemMessage_inv _ (statusUpdateRequest_inv
        (showUploadStatus_inv _ _ (clearMessages_inv (hideLoading_inv h))))
    · exact addSystemMessage_inv _ (hideLoading_inv h)
  · exact addSystemMessage_inv _ (hideLoading_inv h)

theorem init_inv {dom : Elements} {s : State} (supported : Bool) (h : WelcomeInv dom s) :
    WelcomeInv dom (init supported s) :=
  updateSendButton_inv (updateCharCounter_inv (speechInit_inv supported
    (statusUpdateRequest_inv h)))

theorem voiceClick_inv {dom : Elements} {s : State} (h : WelcomeInv dom s) :
    WelcomeInv dom (voiceClick s) := by
  unfold voiceClick
  split
  · split
    · exact stop_inv h
    · exact start_inv h
  · exact h

theorem stopIfRecording_inv {dom : Elements} {s : State} (h : WelcomeInv dom s) :
    WelcomeInv dom (stopIfRecording s) := by
  unfold stopIfRecording
  split
  · exact stop_inv h
  · exact h

theorem runTimer_inv {dom : Elements} {s : State} (a : TimerAction) (h : WelcomeInv dom s) :
    WelcomeInv dom (runTimer a s) := by
  unfold runTimer
  split
  · exact clearUploadStatus_inv h
  · exact removeAnimation_inv _ _ h

theorem runTimers_inv {dom : Elements} (ts : List Timer) :
    ∀ s : State, WelcomeInv dom s →
      WelcomeInv dom (ts.foldl (fun acc t => runTimer t.action acc) s) := by
  induction ts with
  | nil => intro s h; exact h
  | cons t rest ih => intro s h; exact ih _ (runTimer_inv t.action h)

theorem advance_inv {dom : Elements} {s : State} (dt : Nat) (h : WelcomeInv dom s) :
    WelcomeInv dom (advance dt s) := by
  unfold advance
  exact runTimers_inv _ _ (h.of_eq rfl rfl rfl)

theorem step_inv {dom : Elements} {s : State} (env : Env) (e : Event)
    (h : WelcomeInv dom s) : WelcomeInv dom (step env e s) := by
  cases e with
  | init supported => exact init_inv supported h
  | input v sh => exact onInput_inv v sh h
  | send => exact sendMessageRequest_inv env h
  | askOutcome o => exact sendMessageResponse_inv env o h
  | clearChat c => exact clearChatRequest_inv c h
  | clearOutcome o => exact clearChatResponse_inv o h
  | fileChange f => exact handleFileChange_inv env f h
  | uploadOutcome o => exact uploadFileResponse_inv o h
  | statusOutcome o => exact statusUpdateResponse_inv o h
  | voiceClick => exact voiceClick_inv h
  | stopVoice => exact stop_inv h
  | stopIfRecording => exact stopIfRecording_inv h
  | recognitionStart => exact onstart_inv h
  | recognitionResult r i sh => exact onresult_inv r i sh h
  | recognitionEnd => exact stop_inv h
  | recognitionError => exact onerror_inv h
  | advance dt => exact advance_inv dt h

/-- Every reachable state satisfies the invariant. -/
theorem Reachable.welcomeInv {env : Env} {dom : Elements} {s : State}
    (h : Reachable env dom s) : WelcomeInv dom s := by
  induction h with
  | fresh => exact ⟨rfl, rfl, fun _ => rfl⟩
  | step e _ ih => exact step_inv env e ih

theorem clearMessages_messagesList (s : State) :
    (clearMessages s).elements.messagesList = s.elements.messagesList.map (fun _ => []) := by
  unfold clearMessages showWelcome
  dsimp only
  cases h1 : s.elements.messagesList <;> cases h2 : s.elements.welcomeHidden <;> simp [h1, h2]

theorem clearMessages_messages (s : State) : (clearMessages s).chatState.messages = [] := by
  unfold clearMessages showWelcome
  dsimp only
  cases h1 : s.elements.messagesList <;> cases h2 : s.elements.welcomeHidden <;> simp [h1, h2]

theorem clearMessages_welcomeHidden (s : State) :
    (clearMessages s).elements.welcomeHidden = s.elements.welcomeHidden.map (fun _ => false) := by
  unfold clearMessages showWelcome
  dsimp only
  cases h1 : s.elements.messagesList <;> cases h2 : s.elements.welcomeHidden <;> simp [h1, h2]

theorem clearMessages_isWelcomeVisible (s : State)
    (h : s.elements.welcomeHidden = none → s.chatState.isWelcomeVisible = true) :
    (clearMessages s).chatState.isWelcomeVisible = true := by
  unfold clearMessages showWelcome
  dsimp only
  cases h1 : s.elements.messagesList <;> cases h2 : s.elements.welcomeHidden <;>
    simp [h1, h2] <;> exact h h2

/-- The flag after `addUserMessage`, from the flag and the page before it. -/
theorem addUserMessage_isWelcomeVisible (env : Env) (t : JsString) (s : State) :
    (addUserMessage env t s).chatState.isWelcomeVisible
      = (s.chatState.isWelcomeVisible &&
          !(s.elements.messagesList.isSome && s.elements.welcomeHidden.isSome)) := by
  unfold addUserMessage
  cases h1 : s.elements.messagesList with
  | none => simp
  | some l =>
    dsimp only
    rw [appendMessage_chatState]
    cases h3 : s.chatState.isWelcomeVisible with
    | false => simp [h3]
    | true =>
      unfold hideWelcome
      cases h2 : s.elements.welcomeHidden <;> simp [h2, h3]

theorem addBotMessage_isWelcomeVisible (env : Env) (c : JsString) (ts : Option JsString)
    (s : State) :
    ∃ s' : State, addBotMessage env (some c) ts s = some s' ∧
      s'.chatState.isWelcomeVisible = s.chatState.isWelcomeVisible := by
  unfold addBotMessage
  cases h1 : s.elements.messagesList with
  | none => exact ⟨s, rfl, rfl⟩
  | some l => exact ⟨_, rfl, by simp⟩

theorem addSystemMessage_isWelcomeVisible (t : JsString) (s : State) :
    (addSystemMessage t s).chatState.isWelcomeVisible = s.chatState.isWelcomeVisible := by
  unfold addSystemMessage
  cases h1 : s.elements.messagesList with
  | none => rfl
  | some l => simp

/-- C9. In every state the page can reach, `clearMessages` leaves the rendered message list
empty, the transcript empty and the welcome panel visible (the flag is true and the panel is
not hidden), which is the message state of a fresh session.  So the welcome-visible flag after
`clearMessages` followed by `addUserMessage`, `addBotMessage` or `addSystemMessage` is the flag
after that call in a fresh session over the same page. -/
theorem clearMessages_fresh (env : Env) (dom : Elements) (s : State)
    (hr : Reachable env dom s) :
    (clearMessages s).elements.messagesList = s.elements.messagesList.map (fun _ => []) ∧
    (clearMessages s).chatState.messages = [] ∧
    (clearMessages s).chatState.isWelcomeVisible = true ∧
    (clearMessages s).elements.welcomeHidden = s.elements.welcomeHidden.map (fun _ => false) ∧
    (clearMessages s).chatState.messages = (fresh dom).chatState.messages ∧
    (clearMessages s).chatState.isWelcomeVisible = (fresh dom).chatState.isWelcomeVisible ∧
    (∀ t : JsString,
      (addUserMessage env t (clearMessages s)).chatState.isWelcomeVisible
        = (addUserMessage env t (fresh dom)).chatState.isWelcomeVisible) ∧
    (∀ (c : JsString) (ts : Option JsString), ∃ s1 s2 : State,
      addBotMessage env (some c) ts (clearMessages s) = some s1 ∧
      addBotMessage env (some c) ts (fresh dom) = some s2 ∧
      s1.chatState.isWelcomeVisible = s2.chatState.isWelcomeVisible) ∧
    (∀ t : JsString,
      (addSystemMessage t (clearMessages s)).chatState.isWelcomeVisible
        = (addSystemMessage t (fresh dom)).chatState.isWelcomeVisible) := by
  have hinv := hr.welcomeInv
  have hflag := clearMessages_isWelcomeVisible s hinv.2.2
  have hml := clearMessages_messagesList s
  have hwh := clearMessages_welcomeHidden s
  have hfresh : (fresh dom).chatState.isWelcomeVisible = true := rfl
  refine ⟨hml, clearMessages_messages s, hflag, hwh, clearMessages_messages s, hflag, ?_, ?_, ?_⟩
  · intro t
    rw [addUserMessage_isWelcomeVisible, addUserMessage_isWelcomeVisible, hflag, hfresh, hml, hwh]
    have h1 : (s.elements.messagesList.map (fun _ => ([] : List MessageNode))).isSome
        = (fresh dom).elements.messagesList.isSome := by
      show _ = dom.messagesList.isSome
      rw [← hinv.1]; cases s.elements.messagesList <;> rfl
    have h2 : (s.elements.welcomeHidden.map (fun _ => false)).isSome
        = (fresh dom).elements.welcomeHidden.isSome := by
      show _ = dom.welcomeHidden.isSome
      rw [← hinv.2.1]; cases s.elements.welcomeHidden <;> rfl
    rw [h1, h2]
  · intro c ts
    obtain ⟨s1, e1, f1⟩ := addBotMessage_isWelcomeVisible env c ts (clearMessages s)
    obtain ⟨s2, e2, f2⟩ := addBotMessage_isWelcomeVisible env c ts (fresh dom)
    exact ⟨s1, s2, e1, e2, by rw [f1, f2, hflag, hfresh]⟩
  · intro t
    rw [addSystemMessage_isWelcomeVisible, addSystemMessage_isWelcomeVisible, hflag, hfresh]

/-- C9 on the sample page after a question has been typed and sent: the welcome panel is
hidden, and `clearMessages` brings the list, the transcript and the panel back. -/
theorem clearMessages_fresh_witness :
    (step sampleEnv .send
        (step sampleEnv (.input "hi".toList 40) (fresh fullDom))).chatState.isWelcomeVisible
      = false ∧
    (clearMessages (step sampleEnv .send
        (step sampleEnv (.input "hi".toList 40) (fresh fullDom)))).elements.messagesList
      = some [] ∧
    (clearMessages (step sampleEnv .send
        (step sampleEnv (.input "hi".toList 40) (fresh fullDom)))).chatState.messages = [] ∧
    (clearMessages (step sampleEnv .send
        (step sampleEnv (.input "hi".toList 40) (fresh fullDom)))).chatState.isWelcomeVisible
      = true :=
  ⟨by decide,
   ((clearMessages_fresh sampleEnv fullDom _
      (Reachable.step .send (Reachable.step (.input "hi".toList 40) Reachable.fresh))).1.trans
      (by decide)),
   (clearMessages_fresh sampleEnv fullDom _
      (Reachable.step .send (Reachable.step (.input "hi".toList 40) Reachable.fresh))).2.1,
   (clearMessages_fresh sampleEnv fullDom _
      (Reachable.step .send (Reachable.step (.input "hi".toList 40) Reachable.fresh))).2.2.1⟩

/-! ## The transcript -/

theorem addUserMessage_messages (env : Env) (t : JsString) (s : State)
    (l : List MessageNode) (h : s.elements.messagesList = some l) :
    (addUserMessage env t s).chatState.messages = s.chatState.messages ++
      [{ type := "user".toList, content := t, timestamp := s.now }] := by
  unfold addUserMessage
  rw [h]
  dsimp only
  rw [appendMessage_chatState, appendMessage_now]
  cases h3 : s.chatState.isWelcomeVisible with
  | false => simp
  | true =>
    unfold hideWelcome
    cases h2 : s.elements.welcomeHidden <;> simp

theorem addSystemMessage_chatState (t : JsString) (s : State) :
    (addSystemMessage t s).chatState = s.chatState := by
  unfold addSystemMessage
  cases h1 : s.elements.messagesList with
  | none => rfl
  | some l => simp

/-- C10, as the code has it.  On a page with a message list, `addUserMessage` and
`addBotMessage` each put one record after the records of `chatState.messages`, which stay as
they were and in their order: a `user` record or a `bot` record with the text and the current
time.  `addSystemMessage` appends its node to the rendered list and leaves
`chatState.messages` as it is. -/
theorem add_message_transcript (env : Env) (t : JsString) (ts : Option JsString) (s : State)
    (l : List MessageNode) (h : s.elements.messagesList = some l) :
    (addUserMessage env t s).chatState.messages = s.chatState.messages ++
      [{ type := "user".toList, content := t, timestamp := s.now }] ∧
    (∃ s' : State, addBotMessage env (some t) ts s = some s' ∧
      s'.chatState.messages = s.chatState.messages ++
        [{ type := "bot".toList, content := t, timestamp := s.now }]) ∧
    (addSystemMessage t s).chatState.messages = s.chatState.messages ∧
    (∃ n : MessageNode, (addSystemMessage t s).elements.messagesList = some (l ++ [n])) := by
  refine ⟨addUserMessage_messages env t s l h, ?_, ?_, ?_⟩
  · obtain ⟨s', h1, _, h3⟩ := addBotMessage_some env t ts s l h
    exact ⟨s', h1, h3⟩
  · rw [addSystemMessage_chatState]
  · obtain ⟨n, h1, _⟩ := addSystemMessage_messagesList t s l h
    exact ⟨n, h1⟩

/-- C10 on the sample page after a first user message: a bot message makes the transcript two
records long, the first one unchanged. -/
theorem add_message_transcript_witness :
    ∃ s' : State,
      addBotMessage sampleEnv (some "hello".toList) none
        (addUserMessage sampleEnv "hi".toList (fresh fullDom)) = some s' ∧
      s'.chatState.messages =
        [{ type := "user".toList, content := "hi".toList, timestamp := 0 }] ++
        [{ type := "bot".toList, content := "hello".toList, timestamp := 0 }] := by
  obtain ⟨s', h1, h2⟩ := (add_message_transcript sampleEnv "hello".toList none
    (addUserMessage sampleEnv "hi".toList (fresh fullDom))
    [{ id := 0, classes := ["user-message".toList, "slide-up".toList],
       text := "hi".toList, time := some "10:01 AM".toList }] (by decide)).2.1
  exact ⟨s', h1, h2⟩

/-- C10 as stated fails for `addSystemMessage`: on the sample page, where the message list
exists, it renders a node and the transcript stays empty. -/
theorem addSystemMessage_no_record_counterexample :
    (fresh fullDom).elements.messagesList = some [] ∧
    (addSystemMessage "cleared".toList (fresh fullDom)).elements.messagesList
      = some [{ id := 0, classes := ["system-message".toList, "fade-in".toList],
                text := "cleared".toList, time := none }] ∧
    (addSystemMessage "cleared".toList (fresh fullDom)).chatState.messages = [] ∧
    ¬ ∃ r : MessageRecord,
      (addSystemMessage "cleared".toList (fresh fullDom)).chatState.messages
        = (fresh fullDom).chatState.messages ++ [r] := by
  refine ⟨rfl, by decide, by decide, ?_⟩
  rintro ⟨r, hr⟩
  have h : (addSystemMessage "cleared".toList (fresh fullDom)).chatState.messages = [] := by
    decide
  rw [h] at hr
  cases hr

/-! ## The upload banner and its timers -/

theorem showUploadStatus_error_timers (m : JsString) (s : State) :
    (showUploadStatus m "error".toList s).timers = s.timers := by
  unfold showUploadStatus
  split
  · rfl
  · rfl

theorem mem_insertByDue (t x : Timer) (l : List Timer) (h : x ∈ insertByDue t l) :
    x = t ∨ x ∈ l := by
  induction l with
  | nil =>
    simp only [insertByDue, List.mem_singleton] at h
    exact Or.inl h
  | cons u us ih =>
    unfold insertByDue at h
    split at h
    · rcases List.mem_cons.mp h with h | h
      · exact Or.inr (h ▸ List.mem_cons_self u us)
      · rcases ih h with h | h
        · exact Or.inl h
        · exact Or.inr (List.mem_cons_of_mem u h)
    · rcases List.mem_cons.mp h with h | h
      · exact Or.inl h
      · exact Or.inr h

theorem mem_foldl_insertByDue (l : List Timer) :
    ∀ (acc : List Timer) (x : Timer),
      x ∈ l.foldl (fun acc t => insertByDue t acc) acc → x ∈ acc ∨ x ∈ l := by
  induction l with
  | nil => intro acc x h; exact Or.inl h
  | cons t ts ih =>
    intro acc x h
    rcases ih _ x h with h | h
    · rcases mem_insertByDue t x acc h with h | h
      · exact Or.inr (h ▸ List.mem_cons_self t ts)
      · exact Or.inl h
    · exact Or.inr (List.mem_cons_of_mem t h)

theorem mem_orderByDue (l : List Timer) (x : Timer) (h : x ∈ orderByDue l) : x ∈ l := by
  rcases mem_foldl_insertByDue l [] x h with h | h
  · cases h
  · exact h

theorem removeAnimation_uploadStatus (node : Nat) (an : JsString) (s : State) :
    (removeAnimation node an s).elements.uploadStatus = s.elements.uploadStatus := by
  unfold removeAnimation; split <;> rfl

theorem runTimers_uploadStatus (ts : List Timer)
    (h : ∀ t ∈ ts, t.action ≠ TimerAction.clearUploadStatus) :
    ∀ s : State,
      (ts.foldl (fun acc t => runTimer t.action acc) s).elements.uploadStatus
        = s.elements.uploadStatus := by
  induction ts with
  | nil => intro s; rfl
  | cons t rest ih =>
    intro s
    have ht := h t (List.mem_cons_self t rest)
    have hs : (runTimer t.action s).elements.uploadStatus = s.elements.uploadStatus := by
      cases ha : t.action with
      | clearUploadStatus => exact absurd ha ht
      | removeAnimation node an => exact removeAnimation_uploadStatus node an s
    rw [List.foldl_cons, ih (fun u hu => h u (List.mem_cons_of_mem t hu)), hs]

/-- What the guard of `showUploadStatus` does achieve: an error status shown while no
banner-clearing timer is pending stays as it is however much time passes. -/
theorem showUploadStatus_error_stays (m : JsString) (s : State) (u : UploadStatusEl)
    (hu : s.elements.uploadStatus = some u)
    (hp : ∀ t ∈ s.timers, t.action ≠ TimerAction.clearUploadStatus) (dt : Nat) :
    (advance dt (showUploadStatus m "error".toList s)).elements.uploadStatus
      = some { textContent := m, className := "upload-notification error".toList } := by
  unfold advance
  dsimp only
  rw [runTimers_uploadStatus]
  · exact showUploadStatus_error m s u hu
  · intro t ht
    have h1 := mem_orderByDue _ t ht
    rw [showUploadStatus_error_timers] at h1
    exact hp t (List.mem_filter.mp h1).1

/-- C11.  The code at the failing input.  On the sample page an info status is shown at time
0 and an error status one second later; when four more seconds have passed the timer of the
info status runs and the error is gone.  This is the path of `uploadFile`: the `Uploading`
status of an accepted file, then the error of a failed request, cleared five seconds after the
upload began. -/
theorem showUploadStatus_error_cleared_by_earlier_timer :
    (advance 1000 (showUploadStatus "Uploading".toList "info".toList
        (fresh fullDom))).timers
      = [{ due := 5000, action := TimerAction.clearUploadStatus }] ∧
    (showUploadStatus "Upload failed".toList "error".toList
        (advance 1000 (showUploadStatus "Uploading".toList "info".toList
          (fresh fullDom)))).elements.uploadStatus
      = some { textContent := "Upload failed".toList,
               className := "upload-notification error".toList } ∧
    (advance 3999 (showUploadStatus "Upload failed".toList "error".toList
        (advance 1000 (showUploadStatus "Uploading".toList "info".toList
          (fresh fullDom))))).elements.uploadStatus
      = some { textContent := "Upload failed".toList,
               className := "upload-notification error".toList } ∧
    (advance 4000 (showUploadStatus "Upload failed".toList "error".toList
        (advance 1000 (showUploadStatus "Uploading".toList "info".toList
          (fresh fullDom))))).elements.uploadStatus
      = some { textContent := [], className := "upload-notification".toList } ∧
    (uploadFileResponse .failure (advance 1000
        (handleFileChange sampleEnv (some { name := "a.pdf".toList, size := 5 })
          (fresh fullDom)))).elements.uploadStatus
      = some { textContent := "âŒ Upload failed. Please try again.".toList,
               className := "upload-notification error".toList } ∧
    (advance 4000 (uploadFileResponse .failure (advance 1000
        (handleFileChange sampleEnv (some { name := "a.pdf".toList, size := 5 })
          (fresh fullDom))))).elements.uploadStatus
      = some { textContent := [], className := "upload-notification".toList } := by
  decide

end ChatWidget
